import Mathlib

/-!
Verification model of the mystock transactional inventory ledger.

Shallow embedding of the Python services in `app/modules`:
  - `transactions/service.py` (create_sale, create_purchase, record_payment,
    delete_transaction, _generate_transaction_number),
  - `payments/service.py` (PaymentsService.create / update / remove),
  - `container_products/service.py` (set_products_in_container),
  - `contacts/service.py` (update_balance, validate_for_sale, validate_for_purchase).

Conventions of the embedding:
  - Monetary amounts (SQL `Numeric(15,2)`, Python `Decimal`) are scale-2
    decimals; the services only add, subtract, negate and compare them and
    multiply them by integer quantities, all of which is exact, so they are
    modelled as `Money := Int`, the integer count of hundredths.
  - Quantities are `Int` (SQL `Integer`).
  - Soft deletion (`deleted_at` nullable timestamp, queried as `IS NULL`) is
    modelled as a `deleted : Bool` flag; only the null / non-null distinction is
    ever read by the services.
  - Each service call runs in a single unit of work that is committed on success
    and fully rolled back when an exception is raised, so a call is modelled as a
    pure function `DB -> Except Err DB`; on `.error` the database is unchanged,
    which is exactly the state at the commit boundary.
  - A transaction number string such as "SALE-0012" is modelled as its transaction
    tag together with the big-endian list of decimal digits after the dash;
    `int(s.split("-")[1])` is `Nat.ofDigits 10` of the reversed digit list.
-/

namespace MyStock

/-- Monetary amount: a `Numeric(15,2)` decimal as an integer count of
hundredths. The ledger only ever adds, subtracts, negates, compares and
multiplies by an integer quantity, so this representation is exact. -/
abbrev Money := Int

/-- Contact type enum (`contacts/models.py`). -/
inductive ContactType where
  | customer | supplier | both
  deriving DecidableEq, Repr

/-- Transaction type enum (`transactions/models.py`). -/
inductive TransactionType where
  | sale | purchase
  deriving DecidableEq, Repr

/-- Payment status enum (`transactions/models.py`): `paid`, `partial`, `unpaid`.
The middle constructor is named `partial_paid` here. -/
inductive PaymentStatus where
  | paid | partial_paid | unpaid
  deriving DecidableEq, Repr

/-- Payment method enum (`payments/models.py`). -/
inductive PaymentMethod where
  | cash | bank_transfer | upi | cheque | card | other
  deriving DecidableEq, Repr

/-- Cashflow type of a payment row: the string column `type` holding
"income" or "expense". -/
inductive PayKind where
  | income | expense
  deriving DecidableEq, Repr

/-- Error taxonomy of `core/exceptions.py` as far as the ledger raises it;
`conflict` stands for a storage-level IntegrityError on a unique index. -/
inductive Err where
  | validation | notFound | conflict
  deriving DecidableEq, Repr

/-- Tag before the dash in a transaction number: "SALE" or "PUR". -/
inductive TxnTag where
  | SALE | PUR
  deriving DecidableEq, Repr

/-- Transaction number "TAG-digits", e.g. "SALE-0012" is
`⟨.SALE, [0,0,1,2]⟩`; `digits` is the big-endian decimal digit list. -/
structure TxnNumber where
  tag : TxnTag
  digits : List Nat
  deriving DecidableEq, Repr

/-- Contact row (`contacts/models.py`): counterparty with a signed balance. -/
structure Contact where
  id : Nat
  ctype : ContactType
  balance : Money
  deleted : Bool
  deriving DecidableEq, Repr

/-- Product row; only identity and liveness are relevant to the ledger. -/
structure Product where
  id : Nat
  deleted : Bool
  deriving DecidableEq, Repr

/-- ContainerProduct row (`container_products/models.py`): the stock position of
a product in a container, unique per (container_id, product_id). -/
structure ContainerProduct where
  container_id : Nat
  product_id : Nat
  quantity : Int
  deleted : Bool
  deriving DecidableEq, Repr

/-- Transaction header row (`transactions/models.py`). -/
structure Txn where
  id : Nat
  number : TxnNumber
  ttype : TransactionType
  contact_id : Nat
  subtotal : Money
  tax_amount : Money
  discount_amount : Money
  total_amount : Money
  paid_amount : Money
  payment_status : PaymentStatus
  deleted : Bool
  deriving DecidableEq, Repr

/-- TransactionItem row: one product line of a transaction. -/
structure TxnItem where
  transaction_id : Nat
  product_id : Nat
  container_id : Option Nat
  quantity : Int
  unit_price : Money
  line_total : Money
  deleted : Bool
  deriving DecidableEq, Repr

/-- Payment row (`payments/models.py`, table "payments"): linked to a
transaction when `transaction_id` is set, freestanding/manual otherwise. -/
structure Payment where
  id : Nat
  transaction_id : Option Nat
  contact_id : Option Nat
  amount : Money
  deleted : Bool
  deriving DecidableEq, Repr

/-- InventoryLog row (`inventory_logs/models.py`): append-only movement log.
`noteOld` and `noteNew` are the two quantities rendered in the human-readable
`note` string "old -> new". -/
structure InventoryLog where
  product_id : Nat
  container_id : Nat
  action : String
  quantity : Int
  noteOld : Int
  noteNew : Int
  deriving DecidableEq, Repr

/-- The relational database state visible to the ledger services.
`nextTxnId` / `nextPaymentId` model the autoincrement primary-key counters. -/
structure DB where
  contacts : List Contact
  products : List Product
  positions : List ContainerProduct
  txns : List Txn
  txnItems : List TxnItem
  payments : List Payment
  logs : List InventoryLog
  nextTxnId : Nat
  nextPaymentId : Nat
  deriving DecidableEq, Repr

/-- Key of a stock position, ordered as in `transactions/service.py`:
(product_id, container_id). -/
def posKey (cp : ContainerProduct) : Nat × Nat := (cp.product_id, cp.container_id)

/-- SELECT of a stock position by (product_id, container_id); no
`deleted_at IS NULL` filter, matching every position query in the services. -/
def findPos (ps : List ContainerProduct) (k : Nat × Nat) : Option ContainerProduct :=
  ps.find? (fun cp => posKey cp = k)

/-- Current quantity at a key, 0 when the row is absent. -/
def qtyOf (ps : List ContainerProduct) (k : Nat × Nat) : Int :=
  match findPos ps k with
  | some cp => cp.quantity
  | none => 0

/-- Whether a position row exists at a key. -/
def hasPos (ps : List ContainerProduct) (k : Nat × Nat) : Bool :=
  (findPos ps k).isSome

/-- In-place `container_product.quantity += delta` on the row at key `k`
(no-op when the row is absent). -/
def adjustQty (ps : List ContainerProduct) (k : Nat × Nat) (delta : Int) :
    List ContainerProduct :=
  ps.map (fun cp => if posKey cp = k then { cp with quantity := cp.quantity + delta } else cp)

/-- SELECT a contact by id with `deleted_at IS NULL`. -/
def findContact (cs : List Contact) (cid : Nat) : Option Contact :=
  cs.find? (fun c => c.id = cid && !c.deleted)

/-- ContactsService.update_balance: `contact.balance += amount`, persisted with
the caller's unit of work. -/
def update_balance (cs : List Contact) (cid : Nat) (amount : Money) : List Contact :=
  cs.map (fun c => if c.id = cid then { c with balance := c.balance + amount } else c)

/-- SELECT a transaction by id with `deleted_at IS NULL`. -/
def findTxn (ts : List Txn) (tid : Nat) : Option Txn :=
  ts.find? (fun t => t.id = tid && !t.deleted)

/-- SELECT a transaction by id without any deleted filter (the follow-up
fetches in `payments/service.py` use this form). -/
def findTxnAny (ts : List Txn) (tid : Nat) : Option Txn :=
  ts.find? (fun t => t.id = tid)

/-- SELECT a payment by id with `deleted_at IS NULL`. -/
def findPayment (ps : List Payment) (pid : Nat) : Option Payment :=
  ps.find? (fun p => p.id = pid && !p.deleted)

/-- Whether a payment row is a non-deleted payment linked to transaction `tid`. -/
def isLinked (tid : Nat) (p : Payment) : Bool :=
  !p.deleted && p.transaction_id = some tid

/-- SELECT SUM(amount) over non-deleted payments linked to `tid`
(the re-derivation query of `PaymentsService.update`). -/
def linkedPaidSum (ps : List Payment) (tid : Nat) : Money :=
  ((ps.filter (isLinked tid)).map Payment.amount).sum

/-- Payment-status rule as written in create_sale / create_purchase:
`unpaid` when paid == 0, else `paid` when paid >= total, else `partial`. -/
def createStatus (paid total : Money) : PaymentStatus :=
  if paid = 0 then .unpaid
  else if total ≤ paid then .paid
  else .partial_paid

/-- Payment-status rule as written in record_payment and PaymentsService:
`paid` when paid >= total, else `partial` when paid > 0, else `unpaid`. -/
def recordStatus (paid total : Money) : PaymentStatus :=
  if total ≤ paid then .paid
  else if 0 < paid then .partial_paid
  else .unpaid

/-- Tag used for a transaction type: SALE for sales, PUR for purchases. -/
def tagOf (ty : TransactionType) : TxnTag :=
  match ty with
  | .sale => .SALE
  | .purchase => .PUR

/-- Little-endian decimal digits with fuel, so that the kernel can evaluate
it; `decDigitsAux fuel n = Nat.digits 10 n` whenever `n ≤ fuel`. -/
def decDigitsAux : Nat → Nat → List Nat
  | 0, _ => []
  | _ + 1, 0 => []
  | fuel + 1, n + 1 => (n + 1) % 10 :: decDigitsAux fuel ((n + 1) / 10)

/-- Little-endian decimal digits of `n`. -/
def decDigits (n : Nat) : List Nat := decDigitsAux n n

/-- Big-endian digits of `n` zero-padded to width four: Python `f"{n:04d}"`. -/
def natDigits4 (n : Nat) : List Nat :=
  let ds := (decDigits n).reverse
  List.replicate (4 - ds.length) 0 ++ ds

/-- Transaction number `f"{tag}-{n:04d}"`. -/
def formatNumber (tag : TxnTag) (n : Nat) : TxnNumber :=
  ⟨tag, natDigits4 n⟩

/-- Python `int(transaction_number.split("-")[1])`: reads the digit run after
the dash; fails (ValueError) on an empty digit run. -/
def parseNumber (s : TxnNumber) : Option Nat :=
  if s.digits.isEmpty then none else some (Nat.ofDigits 10 s.digits.reverse)

/-- Numeric value of the digit run of a transaction number. -/
def numberValue (s : TxnNumber) : Nat :=
  Nat.ofDigits 10 s.digits.reverse

/-- ORDER BY id DESC LIMIT 1: the row with the greatest id, if any. -/
def maxById (ts : List Txn) : Option Txn :=
  ts.foldl
    (fun acc t =>
      match acc with
      | none => some t
      | some u => if u.id < t.id then some t else some u)
    none

/-- TransactionsService._generate_transaction_number: takes the transaction of
the given type with the greatest id (soft-deleted rows included), parses the
digits after the dash and adds one; falls back to 1 when there is no such
transaction or its number does not parse. -/
def generate_transaction_number (db : DB) (ty : TransactionType) : TxnNumber :=
  match maxById (db.txns.filter (fun t => t.ttype = ty)) with
  | none => formatNumber (tagOf ty) 1
  | some t =>
    match parseNumber t.number with
    | some k => formatNumber (tagOf ty) (k + 1)
    | none => formatNumber (tagOf ty) 1

/-- TransactionItemCreate line of a CreateSaleDto / CreatePurchaseDto. -/
structure SaleItemDto where
  product_id : Nat
  container_id : Option Nat
  quantity : Int
  unit_price : Money
  deriving DecidableEq, Repr

/-- CreateTransactionDto (`transactions/schemas.py`), the shared shape of
CreateSaleDto and CreatePurchaseDto. -/
structure CreateTransactionDto where
  contact_id : Nat
  items : List SaleItemDto
  tax_amount : Money
  discount_amount : Money
  paid_amount : Money
  payment_method : Option PaymentMethod
  deriving DecidableEq, Repr

/-- CreatePaymentDto for record_payment. -/
structure CreatePaymentDto where
  amount : Money
  payment_method : PaymentMethod
  deriving DecidableEq, Repr

/-- CreateManualPaymentDto for PaymentsService.create. -/
structure CreateManualPaymentDto where
  ptype : Option PayKind
  category : Option String
  amount : Money
  payment_method : PaymentMethod
  transaction_id : Option Nat
  contact_id : Option Nat
  description : Option String
  deriving DecidableEq, Repr

/-- UpdateManualPaymentDto restricted to the fields the service reads from
`model_dump(exclude_unset=True)` that affect ledger state: an outer `none`
means the field was not provided, `some none` means it was explicitly set to
null (unlinking for `transaction_id`). -/
structure UpdateManualPaymentDto where
  amount : Option Money
  transaction_id : Option (Option Nat)
  contact_id : Option (Option Nat)
  deriving DecidableEq, Repr

/-- One item of the set_products_in_container payload. -/
structure SetItemDto where
  productId : Nat
  quantity : Int
  deriving DecidableEq, Repr

/-- CreateContainerProductDto for set_products_in_container. -/
structure CreateContainerProductDto where
  containerId : Nat
  items : List SetItemDto
  deriving DecidableEq, Repr

/-- Key of the position a sale/purchase line refers to; the services only read
it after checking the Python truthiness of `item.container_id`. -/
def itemKey (it : SaleItemDto) : Nat × Nat :=
  (it.product_id, it.container_id.getD 0)

/-- Whether all referenced products exist and are not soft-deleted
(ProductService.validate_products_exist). -/
def productsLive (db : DB) (items : List SaleItemDto) : Bool :=
  items.all (fun it => (db.products.find? (fun pr => pr.id = it.product_id && !pr.deleted)).isSome)

/-- STEP 7 of create_sale: per line, build the TransactionItem, apply
`container_product.quantity -= item.quantity` on the pre-fetched shared row and
append the InventoryLog with the "old -> new" note. Returns the built items,
the mutated positions, and the logs. -/
def saleLoop (tid : Nat) (items : List SaleItemDto) (ps : List ContainerProduct) :
    List TxnItem × List ContainerProduct × List InventoryLog :=
  match items with
  | [] => ([], ps, [])
  | it :: rest =>
    let k := itemKey it
    let oldQty := qtyOf ps k
    let titem : TxnItem :=
      { transaction_id := tid, product_id := it.product_id,
        container_id := it.container_id, quantity := it.quantity,
        unit_price := it.unit_price, line_total := (it.quantity : Money) * it.unit_price,
        deleted := false }
    let log : InventoryLog :=
      { product_id := it.product_id, container_id := it.container_id.getD 0,
        action := "sale", quantity := -it.quantity,
        noteOld := oldQty, noteNew := oldQty - it.quantity }
    let (ti, ps', lg) := saleLoop tid rest (adjustQty ps k (-it.quantity))
    (titem :: ti, ps', log :: lg)

/-- STEP 7 of create_purchase: per line, add to the existing position or create
it with the line quantity, and append the InventoryLog. -/
def purchaseLoop (tid : Nat) (items : List SaleItemDto) (ps : List ContainerProduct) :
    List TxnItem × List ContainerProduct × List InventoryLog :=
  match items with
  | [] => ([], ps, [])
  | it :: rest =>
    let k := itemKey it
    let titem : TxnItem :=
      { transaction_id := tid, product_id := it.product_id,
        container_id := it.container_id, quantity := it.quantity,
        unit_price := it.unit_price, line_total := (it.quantity : Money) * it.unit_price,
        deleted := false }
    let (oldQty, ps1) :=
      match findPos ps k with
      | some cp => (cp.quantity, adjustQty ps k it.quantity)
      | none =>
        (0, ps ++ [{ container_id := it.container_id.getD 0,
                     product_id := it.product_id, quantity := it.quantity,
                     deleted := false }])
    let log : InventoryLog :=
      { product_id := it.product_id, container_id := it.container_id.getD 0,
        action := "purchase", quantity := it.quantity,
        noteOld := oldQty, noteNew := oldQty + it.quantity }
    let (ti, ps', lg) := purchaseLoop tid rest ps1
    (titem :: ti, ps', log :: lg)

/-- Subtotal of a dto: `sum(item.quantity * item.unit_price for item in items)`. -/
def saleSubtotal (items : List SaleItemDto) : Money :=
  (items.map (fun it => (it.quantity : Money) * it.unit_price)).sum

/-- Committed state of create_sale / create_purchase (STEPs 6-9): the header
row with number, totals and derived status; the item rows, mutated positions
and movement logs from the loop; the balance-adjusted contacts handed in by
the caller; and one payment row when paid_amount > 0. -/
def createCommit (db : DB) (ty : TransactionType) (dto : CreateTransactionDto)
    (loopOut : List TxnItem × List ContainerProduct × List InventoryLog)
    (contacts' : List Contact) : DB :=
  { db with
      txns := db.txns ++
        [⟨db.nextTxnId, generate_transaction_number db ty, ty, dto.contact_id,
          saleSubtotal dto.items, dto.tax_amount, dto.discount_amount,
          saleSubtotal dto.items + dto.tax_amount - dto.discount_amount,
          dto.paid_amount,
          createStatus dto.paid_amount
            (saleSubtotal dto.items + dto.tax_amount - dto.discount_amount),
          false⟩],
      txnItems := db.txnItems ++ loopOut.1,
      positions := loopOut.2.1,
      logs := db.logs ++ loopOut.2.2,
      contacts := contacts',
      payments := if 0 < dto.paid_amount then
          db.payments ++ [⟨db.nextPaymentId, some db.nextTxnId, none, dto.paid_amount, false⟩]
        else db.payments,
      nextTxnId := db.nextTxnId + 1,
      nextPaymentId := if 0 < dto.paid_amount then
          db.nextPaymentId + 1 else db.nextPaymentId }

/-- TransactionsService.create_sale. Returns the new database and the id of
the created transaction. An exception anywhere in the unit of work rolls the
whole operation back, so every failure is a plain `.error`. The source binds
the intermediate totals to locals; here they are written out in full so that
every guard is a top-level conditional. -/
def create_sale (db : DB) (dto : CreateTransactionDto) : Except Err (DB × Nat) :=
  -- STEP 1: ContactsService.validate_for_sale
  match findContact db.contacts dto.contact_id with
  | none => .error .notFound
  | some contact =>
    if !(contact.ctype = .customer || contact.ctype = .both) then .error .validation
    -- STEP 2: ProductService.validate_products_exist
    else if !productsLive db dto.items then .error .notFound
    -- STEP 3: container_id required for every line (Python truthiness)
    else if !(dto.items.all (fun it => it.container_id.getD 0 ≠ 0)) then .error .validation
    -- ContainerProductService.validate_and_get_stock: every pair has a row
    else if !(dto.items.all (fun it => hasPos db.positions (itemKey it))) then .error .validation
    -- per-line sufficiency check against the pre-fetched snapshot
    else if !(dto.items.all (fun it => it.quantity ≤ qtyOf db.positions (itemKey it))) then
      .error .validation
    -- STEP 4: paid_amount must not exceed the total
    else if saleSubtotal dto.items + dto.tax_amount - dto.discount_amount < dto.paid_amount then
      .error .validation
    -- STEP 9 guard (raised later in the source, but any raise rolls back)
    else if 0 < dto.paid_amount && dto.payment_method.isNone then .error .validation
    else
      -- STEPs 5-10: commit; STEP 8 applies balance_change = total - paid when positive
      .ok (createCommit db .sale dto (saleLoop db.nextTxnId dto.items db.positions)
            (if 0 < saleSubtotal dto.items + dto.tax_amount - dto.discount_amount
                  - dto.paid_amount then
              update_balance db.contacts dto.contact_id
                (saleSubtotal dto.items + dto.tax_amount - dto.discount_amount
                  - dto.paid_amount)
            else db.contacts),
          db.nextTxnId)

/-- TransactionsService.create_purchase. STEP 8 applies
`balance_change = -(total - paid)` whenever it is nonzero. -/
def create_purchase (db : DB) (dto : CreateTransactionDto) : Except Err (DB × Nat) :=
  -- STEP 1: ContactsService.validate_for_purchase
  match findContact db.contacts dto.contact_id with
  | none => .error .notFound
  | some contact =>
    if !(contact.ctype = .supplier || contact.ctype = .both) then .error .validation
    -- STEP 2: products exist
    else if !productsLive db dto.items then .error .notFound
    -- STEP 3: container_id required; positions are fetched but may be absent
    else if !(dto.items.all (fun it => it.container_id.getD 0 ≠ 0)) then .error .validation
    -- STEP 4: paid_amount must not exceed the total
    else if saleSubtotal dto.items + dto.tax_amount - dto.discount_amount < dto.paid_amount then
      .error .validation
    else if 0 < dto.paid_amount && dto.payment_method.isNone then .error .validation
    else
      .ok (createCommit db .purchase dto (purchaseLoop db.nextTxnId dto.items db.positions)
            (if -(saleSubtotal dto.items + dto.tax_amount - dto.discount_amount
                  - dto.paid_amount) ≠ 0 then
              update_balance db.contacts dto.contact_id
                (-(saleSubtotal dto.items + dto.tax_amount - dto.discount_amount
                  - dto.paid_amount))
            else db.contacts),
          db.nextTxnId)

/-- TransactionsService.record_payment. -/
def record_payment (db : DB) (tid : Nat) (dto : CreatePaymentDto) : Except Err DB :=
  match findTxn db.txns tid with
  | none => .error .notFound
  | some txn =>
    -- STEP 2: remaining = total_amount - paid_amount must be positive
    if txn.total_amount - txn.paid_amount ≤ 0 then .error .validation
    -- STEP 3: the amount must be positive and within the remaining balance
    else if dto.amount ≤ 0 then .error .validation
    else if txn.total_amount - txn.paid_amount < dto.amount then .error .validation
    else
      -- STEPs 4-6: payment row, paid_amount and status update, balance update
      .ok { db with
              payments := db.payments ++
                [⟨db.nextPaymentId, some tid, none, dto.amount, false⟩],
              txns := db.txns.map (fun t =>
                if t.id = tid then
                  { t with paid_amount := txn.paid_amount + dto.amount,
                           payment_status :=
                             recordStatus (txn.paid_amount + dto.amount) t.total_amount }
                else t),
              contacts := update_balance db.contacts txn.contact_id
                (if txn.ttype = .sale then -dto.amount else dto.amount),
              nextPaymentId := db.nextPaymentId + 1 }

/-- STEP 2 of delete_transaction: reverse the stock mutation of each line that
has a container and whose position row is found; sales add the quantity back,
purchases subtract it. No check and no log row. -/
def reverseLoop (ty : TransactionType) (items : List TxnItem)
    (ps : List ContainerProduct) : List ContainerProduct :=
  match items with
  | [] => ps
  | it :: rest =>
    match it.container_id with
    | none => reverseLoop ty rest ps
    | some cid =>
      let k := (it.product_id, cid)
      match findPos ps k with
      | none => reverseLoop ty rest ps
      | some _ =>
        reverseLoop ty rest
          (adjustQty ps k (if ty = .sale then it.quantity else -it.quantity))

/-- TransactionsService.delete_transaction: reverse the stock of every item
row of the transaction, reverse the outstanding balance, then soft-delete the
transaction, its items and its payments. -/
def delete_transaction (db : DB) (tid : Nat) : Except Err DB :=
  match findTxn db.txns tid with
  | none => .error .notFound
  | some txn =>
    .ok { db with
            positions := reverseLoop txn.ttype
              (db.txnItems.filter (fun it => it.transaction_id = tid)) db.positions,
            contacts := if 0 < txn.total_amount - txn.paid_amount then
                update_balance db.contacts txn.contact_id
                  (if txn.ttype = .sale then -(txn.total_amount - txn.paid_amount)
                   else txn.total_amount - txn.paid_amount)
              else db.contacts,
            txns := db.txns.map (fun t =>
              if t.id = tid then { t with deleted := true } else t),
            txnItems := db.txnItems.map (fun it =>
              if it.transaction_id = tid then { it with deleted := true } else it),
            payments := db.payments.map (fun p =>
              if p.transaction_id = some tid then { p with deleted := true } else p) }

/-- The committed state of delete_transaction once the transaction row has
been fetched: reversed stock, reversed outstanding balance, soft-deleted
header, items and payments. -/
def deleteCommit (db : DB) (tid : Nat) (txn : Txn) : DB :=
  { db with
      positions := reverseLoop txn.ttype
        (db.txnItems.filter (fun it => it.transaction_id = tid)) db.positions,
      contacts := if 0 < txn.total_amount - txn.paid_amount then
          update_balance db.contacts txn.contact_id
            (if txn.ttype = .sale then -(txn.total_amount - txn.paid_amount)
             else txn.total_amount - txn.paid_amount)
        else db.contacts,
      txns := db.txns.map (fun t =>
        if t.id = tid then { t with deleted := true } else t),
      txnItems := db.txnItems.map (fun it =>
        if it.transaction_id = tid then { it with deleted := true } else it),
      payments := db.payments.map (fun p =>
        if p.transaction_id = some tid then { p with deleted := true } else p) }

/-- Python truthiness of an optional string: `None` and `""` are falsy. -/
def strProvided (s : Option String) : Bool :=
  match s with
  | none => false
  | some v => v ≠ ""

/-- Committed state of PaymentsService.create: one new payment row; when it is
linked, the transaction additionally gets `paid_amount += amount` and the
record_payment status rule. The contact balance is never touched and the
amount is not compared with the remaining balance. -/
def payments_create_commit (db : DB) (dto : CreateManualPaymentDto) : DB :=
  { db with
      payments := db.payments ++
        [⟨db.nextPaymentId, dto.transaction_id, dto.contact_id, dto.amount, false⟩],
      txns := match dto.transaction_id with
        | some tid =>
          db.txns.map (fun t =>
            if t.id = tid then
              { t with paid_amount := t.paid_amount + dto.amount,
                       payment_status :=
                         recordStatus (t.paid_amount + dto.amount) t.total_amount }
            else t)
        | none => db.txns,
      nextPaymentId := db.nextPaymentId + 1 }

/-- Contact validation step of PaymentsService.create, shared by both the
linked and the manual branch. -/
def payments_create_stage2 (db : DB) (dto : CreateManualPaymentDto) : Except Err DB :=
  match dto.contact_id with
  | some cid =>
    match findContact db.contacts cid with
    | none => .error .notFound
    | some _ => .ok (payments_create_commit db dto)
  | none => .ok (payments_create_commit db dto)

/-- PaymentsService.create. -/
def payments_create (db : DB) (dto : CreateManualPaymentDto) : Except Err DB :=
  match dto.transaction_id with
  | some tid =>
    -- linked payment: the transaction must exist and not be soft-deleted
    match findTxn db.txns tid with
    | none => .error .notFound
    | some _ => payments_create_stage2 db dto
  | none =>
    -- manual payment: description, category and type are required
    if !strProvided dto.description then .error .validation
    else if !strProvided dto.category then .error .validation
    else if dto.ptype.isNone then .error .validation
    else payments_create_stage2 db dto

/-- The payment row after applying the provided update fields. -/
def updatedPayment (pay : Payment) (dto : UpdateManualPaymentDto) : Payment :=
  { pay with
      amount := dto.amount.getD pay.amount,
      transaction_id := dto.transaction_id.getD pay.transaction_id,
      contact_id := dto.contact_id.getD pay.contact_id }

/-- PaymentsService.update, transaction bookkeeping step 1: when the payment
is moved away from a transaction, that transaction is decremented by the old
amount (incremental arithmetic, not a re-derivation). -/
def decOldTxns (ts : List Txn) (pay : Payment) (newTid : Option Nat) : List Txn :=
  match pay.transaction_id with
  | some ot =>
    if pay.transaction_id ≠ newTid then
      match findTxnAny ts ot with
      | some _ =>
        ts.map (fun t =>
          if t.id = ot then
            { t with paid_amount := t.paid_amount - pay.amount,
                     payment_status :=
                       recordStatus (t.paid_amount - pay.amount) t.total_amount }
          else t)
      | none => ts
    else ts
  | none => ts

/-- PaymentsService.update, transaction bookkeeping step 2: the transaction
the payment now points at gets `paid_amount` re-derived as the sum of its
non-deleted linked payments. -/
def rederiveTxns (ts : List Txn) (payments1 : List Payment) (newTid : Option Nat) :
    List Txn :=
  match newTid with
  | some nt =>
    match findTxnAny ts nt with
    | some _ =>
      ts.map (fun t =>
        if t.id = nt then
          { t with paid_amount := linkedPaidSum payments1 nt,
                   payment_status :=
                     recordStatus (linkedPaidSum payments1 nt) t.total_amount }
        else t)
    | none => ts
  | none => ts

/-- Committed state of PaymentsService.update. -/
def payments_update_commit (db : DB) (pid : Nat) (dto : UpdateManualPaymentDto)
    (pay : Payment) : DB :=
  { db with
      payments := db.payments.map (fun p => if p.id = pid then updatedPayment pay dto else p),
      txns := rederiveTxns (decOldTxns db.txns pay (updatedPayment pay dto).transaction_id)
        (db.payments.map (fun p => if p.id = pid then updatedPayment pay dto else p))
        (updatedPayment pay dto).transaction_id }

/-- Payment fetch and commit step of PaymentsService.update. -/
def payments_update_stage3 (db : DB) (pid : Nat) (dto : UpdateManualPaymentDto) :
    Except Err DB :=
  match findPayment db.payments pid with
  | none => .error .notFound
  | some pay => .ok (payments_update_commit db pid dto pay)

/-- Transaction validation step of PaymentsService.update. -/
def payments_update_stage2 (db : DB) (pid : Nat) (dto : UpdateManualPaymentDto) :
    Except Err DB :=
  match dto.transaction_id with
  | some (some tid) =>
    match findTxn db.txns tid with
    | none => .error .notFound
    | some _ => payments_update_stage3 db pid dto
  | _ => payments_update_stage3 db pid dto

/-- PaymentsService.update restricted to the ledger-relevant fields. The
current transaction is re-derived by summing non-deleted linked payments; a
transaction the payment is moved away from is decremented incrementally; the
contact balance is never touched. -/
def payments_update (db : DB) (pid : Nat) (dto : UpdateManualPaymentDto) :
    Except Err DB :=
  if dto.amount.isNone && dto.transaction_id.isNone && dto.contact_id.isNone then
    -- empty update_data: find_one and return unchanged
    match findPayment db.payments pid with
    | none => .error .notFound
    | some _ => .ok db
  else
    match dto.contact_id with
    | some (some cid) =>
      match findContact db.contacts cid with
      | none => .error .notFound
      | some _ => payments_update_stage2 db pid dto
    | _ => payments_update_stage2 db pid dto

/-- PaymentsService.remove: soft-deletes the payment; when it is linked to a
transaction, decrements that transaction's `paid_amount` by the payment's
amount (incremental, not a re-derivation) and recomputes the status. The
contact balance is never touched. -/
def payments_remove (db : DB) (pid : Nat) : Except Err DB :=
  match findPayment db.payments pid with
  | none => .error .notFound
  | some pay =>
    .ok { db with
            txns := match pay.transaction_id with
              | some tid =>
                match findTxnAny db.txns tid with
                | some _ =>
                  db.txns.map (fun t =>
                    if t.id = tid then
                      { t with paid_amount := t.paid_amount - pay.amount,
                               payment_status :=
                                 recordStatus (t.paid_amount - pay.amount) t.total_amount }
                    else t)
                | none => db.txns
              | none => db.txns,
            payments := db.payments.map (fun p =>
              if p.id = pid then { p with deleted := true } else p) }

/-- Loop body of set_products_in_container: threads the positions and the
logs to insert. Existence is decided against the pre-fetched rows `orig`
(the Python `existing_map`), while quantities are read from and written to
the live threaded rows. -/
def setLoop (cid : Nat) (orig : List ContainerProduct) (items : List SetItemDto)
    (ps : List ContainerProduct) (logs : List InventoryLog) :
    Except Err (List ContainerProduct × List InventoryLog) :=
  match items with
  | [] => .ok (ps, logs)
  | it :: rest =>
    if it.quantity < 0 then .error .validation
    else
      let k := (it.productId, cid)
      if hasPos orig k then
        let current := qtyOf ps k
        let delta := it.quantity - current
        let logs1 :=
          if delta ≠ 0 then
            logs ++ [{ product_id := it.productId, container_id := cid,
                       action := if 0 < delta then "added" else "removed",
                       quantity := (delta.natAbs : Int),
                       noteOld := current, noteNew := it.quantity }]
          else logs
        if it.quantity = 0 then
          -- soft delete; the stored quantity is left as it was
          setLoop cid orig rest
            (ps.map (fun cp => if posKey cp = k then { cp with deleted := true } else cp))
            logs1
        else
          setLoop cid orig rest
            (ps.map (fun cp =>
              if posKey cp = k then { cp with quantity := it.quantity, deleted := false }
              else cp))
            logs1
      else
        if it.quantity = 0 then setLoop cid orig rest ps logs
        else
          setLoop cid orig rest
            (ps ++ [{ container_id := cid, product_id := it.productId,
                      quantity := it.quantity, deleted := false }])
            (logs ++ [{ product_id := it.productId, container_id := cid,
                        action := "added", quantity := it.quantity,
                        noteOld := 0, noteNew := it.quantity }])

/-- Whether the (container_id, product_id) unique index
`idx_container_product_unique` accepts the rows. -/
def posKeysNodup (ps : List ContainerProduct) : Bool :=
  (ps.map posKey).Nodup

/-- ContainerProductService.set_products_in_container. A duplicate created
row would be rejected by the unique index at flush; that storage failure is
`Err.conflict` and rolls the operation back. -/
def set_products_in_container (db : DB) (payload : CreateContainerProductDto) :
    Except Err DB :=
  match setLoop payload.containerId db.positions payload.items db.positions [] with
  | .error e => .error e
  | .ok (ps', newLogs) =>
    if posKeysNodup ps' then .ok { db with positions := ps', logs := db.logs ++ newLogs }
    else .error .conflict

/-- One public ledger operation. -/
inductive Op where
  | createSale (dto : CreateTransactionDto)
  | createPurchase (dto : CreateTransactionDto)
  | recordPayment (tid : Nat) (dto : CreatePaymentDto)
  | deleteTransaction (tid : Nat)
  | paymentsCreate (dto : CreateManualPaymentDto)
  | paymentsUpdate (pid : Nat) (dto : UpdateManualPaymentDto)
  | paymentsRemove (pid : Nat)
  | setProducts (payload : CreateContainerProductDto)
  deriving DecidableEq, Repr

/-- Run one operation at a commit boundary: a successful unit of work commits
its new state, a failed one is rolled back and leaves the database unchanged. -/
def step (db : DB) (op : Op) : DB :=
  match op with
  | .createSale dto =>
    match create_sale db dto with
    | .ok (db', _) => db'
    | .error _ => db
  | .createPurchase dto =>
    match create_purchase db dto with
    | .ok (db', _) => db'
    | .error _ => db
  | .recordPayment tid dto =>
    match record_payment db tid dto with
    | .ok db' => db'
    | .error _ => db
  | .deleteTransaction tid =>
    match delete_transaction db tid with
    | .ok db' => db'
    | .error _ => db
  | .paymentsCreate dto =>
    match payments_create db dto with
    | .ok db' => db'
    | .error _ => db
  | .paymentsUpdate pid dto =>
    match payments_update db pid dto with
    | .ok db' => db'
    | .error _ => db
  | .paymentsRemove pid =>
    match payments_remove db pid with
    | .ok db' => db'
    | .error _ => db
  | .setProducts payload =>
    match set_products_in_container db payload with
    | .ok db' => db'
    | .error _ => db

/-- Run a sequence of operations. -/
def run (db : DB) (ops : List Op) : DB :=
  ops.foldl step db

/-- Pydantic constraints of CreateTransactionDto (`transactions/schemas.py`):
at least one item, positive ids and quantities, non-negative amounts. -/
def CreateTransactionDto.Valid (dto : CreateTransactionDto) : Prop :=
  dto.items ≠ [] ∧
  (∀ it ∈ dto.items,
    0 < it.product_id ∧ (∀ c ∈ it.container_id, 0 < c) ∧
    0 < it.quantity ∧ 0 ≤ it.unit_price) ∧
  0 ≤ dto.tax_amount ∧ 0 ≤ dto.discount_amount ∧ 0 ≤ dto.paid_amount

instance (dto : CreateTransactionDto) : Decidable dto.Valid := by
  unfold CreateTransactionDto.Valid; infer_instance

/-- Pydantic constraints of the DTO carried by an operation. -/
def Op.Valid : Op → Prop
  | .createSale dto => dto.Valid
  | .createPurchase dto => dto.Valid
  | .recordPayment _ dto => 0 < dto.amount
  | .deleteTransaction _ => True
  | .paymentsCreate dto => 0 < dto.amount
  | .paymentsUpdate _ dto => ∀ a ∈ dto.amount, 0 < a
  | .paymentsRemove _ => True
  | .setProducts _ => True

instance (op : Op) : Decidable op.Valid := by
  cases op <;> (unfold Op.Valid; infer_instance)

/-- Initial database: arbitrary contacts and products (created by the CRUD
modules outside the ledger), no transactions, items, payments, positions or
logs yet. -/
def seedDB (contacts : List Contact) (products : List Product) : DB :=
  { contacts := contacts, products := products, positions := [], txns := [],
    txnItems := [], payments := [], logs := [], nextTxnId := 1, nextPaymentId := 1 }

/-- TransactionItem built for a dto line, as in STEP 7 of create_sale and
create_purchase. -/
def mkTxnItem (tid : Nat) (it : SaleItemDto) : TxnItem :=
  { transaction_id := tid, product_id := it.product_id,
    container_id := it.container_id, quantity := it.quantity,
    unit_price := it.unit_price, line_total := (it.quantity : Money) * it.unit_price,
    deleted := false }

/-- Total dto quantity aimed at position key `k`. -/
def dtoQtyAt (items : List SaleItemDto) (k : Nat × Nat) : Int :=
  ((items.filter (fun it => itemKey it = k)).map SaleItemDto.quantity).sum

/-- Deleted flag of the position row at `k`, when the row exists. -/
def deletedOf (ps : List ContainerProduct) (k : Nat × Nat) : Option Bool :=
  (findPos ps k).map ContainerProduct.deleted

/-- Well-formedness facts every reachable relational state satisfies:
rows are stored in primary-key order (autoincrement) and every stored id or
foreign key is below the corresponding autoincrement counter. -/
structure WF (db : DB) : Prop where
  txnSorted : db.txns.Pairwise (fun a b => a.id < b.id)
  txnLt : ∀ t ∈ db.txns, t.id < db.nextTxnId
  paySorted : db.payments.Pairwise (fun a b => a.id < b.id)
  payLt : ∀ p ∈ db.payments, p.id < db.nextPaymentId
  itemLt : ∀ it ∈ db.txnItems, it.transaction_id < db.nextTxnId
  payTidLt : ∀ p ∈ db.payments, ∀ tid ∈ p.transaction_id, tid < db.nextTxnId

/-- Payment-consistency invariant: every non-deleted transaction's
`paid_amount` is the sum of its non-deleted linked payments. -/
def PaidInv (db : DB) : Prop :=
  ∀ t ∈ db.txns, t.deleted = false →
    t.paid_amount = linkedPaidSum db.payments t.id

/-- Status invariant: every stored `payment_status` equals one of the two
status rules evaluated at the stored amounts (create_sale order or
record_payment order). -/
def StatusInv (db : DB) : Prop :=
  ∀ t ∈ db.txns,
    t.payment_status = createStatus t.paid_amount t.total_amount ∨
    t.payment_status = recordStatus t.paid_amount t.total_amount

/-- Numbering invariant: every transaction number is the formatted number of
some positive value with the tag of its type, and numbers strictly increase
with the id within each type. -/
def NumInv (db : DB) : Prop :=
  (∀ t ∈ db.txns, ∃ n, 1 ≤ n ∧ t.number = formatNumber (tagOf t.ttype) n) ∧
  db.txns.Pairwise (fun a b =>
    a.ttype = b.ttype → numberValue a.number < numberValue b.number)

/-- Combined reachable-state invariant. -/
def Inv (db : DB) : Prop :=
  WF db ∧ PaidInv db ∧ StatusInv db ∧ NumInv db

/-- A transaction-list transformation that preserves id, type, number,
deleted flag and total, and either leaves status and paid amount alone or
stores the record_payment status of the new amounts. Every transaction
patch performed by the payment services has this shape. -/
def SigMap (ts ts' : List Txn) : Prop :=
  ∃ F : Txn → Txn, ts' = ts.map F ∧
    (∀ t, (F t).id = t.id) ∧ (∀ t, (F t).ttype = t.ttype) ∧
    (∀ t, (F t).number = t.number) ∧ (∀ t, (F t).deleted = t.deleted) ∧
    (∀ t, (F t).total_amount = t.total_amount) ∧
    (∀ t, ((F t).payment_status = t.payment_status ∧ (F t).paid_amount = t.paid_amount) ∨
      (F t).payment_status = recordStatus (F t).paid_amount (F t).total_amount)

/-! Concrete rows used by the witness states. -/

/-- Witness contact: a customer-and-supplier with balance 0. -/
def contactW : Contact := { id := 1, ctype := .both, balance := 0, deleted := false }

/-- Witness product. -/
def productW : Product := { id := 1, deleted := false }

/-- Witness initial database: one contact, one product, nothing else. -/
def dbW : DB := seedDB [contactW] [productW]

/-- Witness purchase: 5 units of product 1 into container 1 at price 10. -/
def purchaseDtoW : CreateTransactionDto :=
  { contact_id := 1,
    items := [⟨1, some 1, 5, 10⟩],
    tax_amount := 0, discount_amount := 0, paid_amount := 0, payment_method := none }

/-- Witness sale: 3 units of product 1 from container 1 at price 20. -/
def saleDtoW : CreateTransactionDto :=
  { contact_id := 1,
    items := [⟨1, some 1, 3, 20⟩],
    tax_amount := 0, discount_amount := 0, paid_amount := 0, payment_method := none }

/-- Database after the witness purchase: 5 units on hand. -/
def dbPurW : DB := step dbW (.createPurchase purchaseDtoW)

/-- Database after the witness purchase and sale: 2 units on hand. -/
def dbPurSaleW : DB := step dbPurW (.createSale saleDtoW)

/-- Witness sale that empties the stock position: 5 units at price 20. -/
def saleAllW : CreateTransactionDto :=
  { contact_id := 1, items := [⟨1, some 1, 5, 20⟩],
    tax_amount := 0, discount_amount := 0, paid_amount := 0, payment_method := none }

/-- Witness purchase of free items: its total amount is 0. -/
def purchaseFreeW : CreateTransactionDto :=
  { contact_id := 1, items := [⟨1, some 1, 5, 0⟩],
    tax_amount := 0, discount_amount := 0, paid_amount := 0, payment_method := none }

/-- Witness manual payment of 3, linked to transaction 1. -/
def mpayW : CreateManualPaymentDto :=
  { ptype := none, category := none, amount := 3, payment_method := .cash,
    transaction_id := some 1, contact_id := none, description := none }

/-- Witness manual payment of 100, linked to transaction 1; it exceeds the
remaining balance of the witness purchase. -/
def mpayBigW : CreateManualPaymentDto :=
  { ptype := none, category := none, amount := 100, payment_method := .cash,
    transaction_id := some 1, contact_id := none, description := none }

/-- Witness dto for record_payment: 3 by cash. -/
def cpayW : CreatePaymentDto := { amount := 3, payment_method := .cash }

/-- Witness dto for record_payment: 100 by cash, more than the witness
purchase's remaining balance. -/
def cpay100W : CreatePaymentDto := { amount := 100, payment_method := .cash }

/-- The header row created by the witness purchase. -/
def txnPurW : Txn :=
  { id := 1, number := ⟨.PUR, [0, 0, 0, 1]⟩, ttype := .purchase, contact_id := 1,
    subtotal := 50, tax_amount := 0, discount_amount := 0, total_amount := 50,
    paid_amount := 0, payment_status := .unpaid, deleted := false }

/-- Payload setting product 1 in container 1 to quantity zero. -/
def setZeroW : CreateContainerProductDto := { containerId := 1, items := [⟨1, 0⟩] }

/-- Decidable equality of operation results, used to state concrete
evaluations of the services. -/
instance {e a : Type} [DecidableEq e] [DecidableEq a] : DecidableEq (Except e a)
  | .error x, .error y =>
    decidable_of_iff (x = y) ⟨fun h => by rw [h], fun h => by cases h; rfl⟩
  | .error _, .ok _ => isFalse (fun h => Except.noConfusion h)
  | .ok _, .error _ => isFalse (fun h => Except.noConfusion h)
  | .ok x, .ok y =>
    decidable_of_iff (x = y) ⟨fun h => by rw [h], fun h => by cases h; rfl⟩

/-- Non-negativity of every stored payment amount. The pydantic DTOs only
accept positive amounts, so every reachable state satisfies it; it is what
makes a transaction's `paid_amount` non-negative through `PaidInv`. -/
def PayPos (db : DB) : Prop :=
  ∀ p ∈ db.payments, 0 < p.amount

/-! Basic facts about the digit formatting and parsing of transaction numbers. -/

theorem decDigitsAux_eq (fuel : Nat) : ∀ n : Nat, n ≤ fuel → decDigitsAux fuel n = Nat.digits 10 n := by
  induction fuel with
  | zero =>
    intro n hn
    interval_cases n
    simp [decDigitsAux]
  | succ fuel ih =>
    intro n hn
    match n with
    | 0 => simp [decDigitsAux]
    | m + 1 =>
      rw [decDigitsAux, Nat.digits_def' (by norm_num : (1:Nat) < 10) (Nat.succ_pos m)]
      congr 1
      exact ih _ (Nat.le_of_lt_succ (Nat.lt_of_lt_of_le
        (Nat.div_lt_self (Nat.succ_pos m) (by norm_num)) hn))

theorem decDigits_eq (n : Nat) : decDigits n = Nat.digits 10 n :=
  decDigitsAux_eq n n le_rfl

theorem ofDigits_replicate_zero (k : Nat) :
    Nat.ofDigits 10 (List.replicate k 0) = 0 := by
  induction k with
  | zero => simp [Nat.ofDigits]
  | succ k ih => simp [List.replicate_succ, Nat.ofDigits_cons, ih]

theorem numberValue_formatNumber (tag : TxnTag) (n : Nat) :
    numberValue (formatNumber tag n) = n := by
  unfold numberValue formatNumber natDigits4
  simp only [decDigits_eq]
  rw [List.reverse_append, List.reverse_reverse, List.reverse_replicate]
  rw [Nat.ofDigits_append, Nat.ofDigits_digits, ofDigits_replicate_zero]
  simp

theorem natDigits4_ne_nil (n : Nat) : natDigits4 n ≠ [] := by
  unfold natDigits4
  intro h
  rcases List.append_eq_nil.mp h with ⟨h1, h2⟩
  rw [List.length_eq_zero.mpr h2] at h1
  simp at h1

theorem parseNumber_formatNumber (tag : TxnTag) (n : Nat) :
    parseNumber (formatNumber tag n) = some n := by
  have hne : (formatNumber tag n).digits ≠ [] := natDigits4_ne_nil n
  unfold parseNumber
  rw [if_neg (by simpa [List.isEmpty_iff] using hne)]
  exact congrArg some (numberValue_formatNumber tag n)

/-! Small helpers about the list primitives of the embedding. -/

theorem update_balance_cancel (cs : List Contact) (cid : Nat) (a : Money) :
    update_balance (update_balance cs cid a) cid (-a) = cs := by
  unfold update_balance
  rw [List.map_map]
  have : ∀ c : Contact,
      ((fun c : Contact => if c.id = cid then { c with balance := c.balance + -a } else c) ∘
        (fun c : Contact => if c.id = cid then { c with balance := c.balance + a } else c)) c
      = c := by
    intro c
    simp only [Function.comp_apply]
    by_cases h : c.id = cid
    · rw [if_pos h, if_pos (show ({ c with balance := c.balance + a } : Contact).id = cid from h)]
      show ({ c with balance := c.balance + a + -a } : Contact) = c
      rw [add_neg_cancel_right]
    · rw [if_neg h, if_neg h]
  rw [List.map_congr_left (g := id) (fun c _ => this c), List.map_id]

theorem pairwise_two {α : Type} (R : α → α → Prop) (l : List α) (h : l.Pairwise R) :
    ∀ t ∈ l, ∀ u ∈ l, t = u ∨ R t u ∨ R u t := by
  induction l with
  | nil => intro t ht; cases ht
  | cons x xs ih =>
    rcases List.pairwise_cons.mp h with ⟨hx, hxs⟩
    intro t ht u hu
    rcases List.mem_cons.mp ht with rfl | ht'
    · rcases List.mem_cons.mp hu with rfl | hu'
      · exact Or.inl rfl
      · exact Or.inr (Or.inl (hx u hu'))
    · rcases List.mem_cons.mp hu with rfl | hu'
      · exact Or.inr (Or.inr (hx t ht'))
      · exact ih hxs t ht' u hu'

theorem find?_append_of_none {α : Type} (p : α → Bool) (l₁ l₂ : List α)
    (h : ∀ x ∈ l₁, p x = false) :
    List.find? p (l₁ ++ l₂) = List.find? p l₂ := by
  induction l₁ with
  | nil => simp
  | cons x xs ih =>
    rw [List.cons_append,
      List.find?_cons_of_neg _ (by simp [h x (List.mem_cons_self x xs)])]
    exact ih (fun y hy => h y (List.mem_cons_of_mem x hy))

theorem linkedPaidSum_append (l : List Payment) (p : Payment) (tid : Nat) :
    linkedPaidSum (l ++ [p]) tid =
      linkedPaidSum l tid + (if isLinked tid p then p.amount else 0) := by
  unfold linkedPaidSum
  rw [List.filter_append, List.map_append, List.sum_append]
  by_cases h : isLinked tid p = true <;> simp [List.filter_cons, h]

theorem linkedPaidSum_cons (x : Payment) (xs : List Payment) (tid : Nat) :
    linkedPaidSum (x :: xs) tid =
      (if isLinked tid x then x.amount else 0) + linkedPaidSum xs tid := by
  unfold linkedPaidSum
  by_cases h : isLinked tid x = true <;> simp [List.filter_cons, h]

theorem linkedPaidSum_congr (l : List Payment) (f : Payment → Payment) (tid : Nat)
    (h : ∀ p ∈ l, isLinked tid (f p) = isLinked tid p ∧
      (isLinked tid p = true → (f p).amount = p.amount)) :
    linkedPaidSum (l.map f) tid = linkedPaidSum l tid := by
  induction l with
  | nil => rfl
  | cons x xs ih =>
    have hx := h x (List.mem_cons_self x xs)
    have ihx := ih (fun p hp => h p (List.mem_cons_of_mem x hp))
    rw [List.map_cons, linkedPaidSum_cons, linkedPaidSum_cons, hx.1, ihx]
    by_cases hl : isLinked tid x = true
    · rw [if_pos hl, if_pos hl, hx.2 hl]
    · rw [if_neg hl, if_neg hl]

theorem linkedPaidSum_replace (l : List Payment) (pid : Nat) (q p₀ : Payment) (tid : Nat)
    (hsort : l.Pairwise (fun a b => a.id < b.id))
    (hmem : p₀ ∈ l) (hid : p₀.id = pid) :
    linkedPaidSum (l.map (fun p => if p.id = pid then q else p)) tid =
      linkedPaidSum l tid - (if isLinked tid p₀ then p₀.amount else 0)
        + (if isLinked tid q then q.amount else 0) := by
  induction l with
  | nil => cases hmem
  | cons x xs ih =>
    rcases List.pairwise_cons.mp hsort with ⟨hx, hxs⟩
    rcases List.mem_cons.mp hmem with rfl | hmem'
    · -- the replaced row is the head; every later row has a greater id
      have hmap : xs.map (fun p => if p.id = pid then q else p) = xs := by
        rw [List.map_congr_left (g := id), List.map_id]
        intro p hp
        have : ¬ p.id = pid := by
          intro hpe
          exact absurd (hid ▸ hpe ▸ hx p hp) (lt_irrefl _)
        simp [this]
      have hq : (if p₀.id = pid then q else p₀) = q := if_pos hid
      rw [List.map_cons, hq, hmap, linkedPaidSum_cons, linkedPaidSum_cons]
      ring
    · -- the replaced row is in the tail, and the head is untouched
      have hxid : ¬ x.id = pid := by
        intro hpe
        exact absurd (hid ▸ hpe ▸ hx p₀ hmem') (lt_irrefl _)
      have hxq : (if x.id = pid then q else x) = x := if_neg hxid
      rw [List.map_cons, hxq, linkedPaidSum_cons, linkedPaidSum_cons, ih hxs hmem']
      ring

/-! Facts about the stock-position primitives. -/

theorem posKey_patch (k : Nat × Nat) (δ : Int) (cp : ContainerProduct) :
    posKey (if posKey cp = k then { cp with quantity := cp.quantity + δ } else cp) =
      posKey cp := by
  by_cases h : posKey cp = k
  · rw [if_pos h]; rfl
  · rw [if_neg h]

theorem findPos_adjust (ps : List ContainerProduct) (k k' : Nat × Nat) (δ : Int) :
    findPos (adjustQty ps k δ) k' =
      (findPos ps k').map
        (fun cp => if posKey cp = k then { cp with quantity := cp.quantity + δ } else cp) := by
  unfold findPos adjustQty
  induction ps with
  | nil => rfl
  | cons cp ps ih =>
    rw [List.map_cons]
    by_cases h : posKey cp = k'
    · rw [List.find?_cons_of_pos _ (by rw [decide_eq_true_eq, posKey_patch]; exact h),
        List.find?_cons_of_pos _ (by rw [decide_eq_true_eq]; exact h)]
      rfl
    · rw [List.find?_cons_of_neg _ (by rw [decide_eq_true_eq, posKey_patch]; exact h),
        List.find?_cons_of_neg _ (by rw [decide_eq_true_eq]; exact h)]
      exact ih

theorem hasPos_adjust (ps : List ContainerProduct) (k k' : Nat × Nat) (δ : Int) :
    hasPos (adjustQty ps k δ) k' = hasPos ps k' := by
  unfold hasPos
  rw [findPos_adjust]
  cases findPos ps k' <;> rfl

theorem deletedOf_adjust (ps : List ContainerProduct) (k k' : Nat × Nat) (δ : Int) :
    deletedOf (adjustQty ps k δ) k' = deletedOf ps k' := by
  unfold deletedOf
  rw [findPos_adjust]
  cases hf : findPos ps k' with
  | none => rfl
  | some cp => by_cases h : posKey cp = k <;> simp [h]

theorem qtyOf_adjust_ne (ps : List ContainerProduct) (k k' : Nat × Nat) (δ : Int)
    (h : k' ≠ k) : qtyOf (adjustQty ps k δ) k' = qtyOf ps k' := by
  unfold qtyOf
  rw [findPos_adjust]
  cases hf : findPos ps k' with
  | none => rfl
  | some cp =>
    have hk : posKey cp = k' := by simpa using List.find?_some hf
    simp [Option.map, if_neg (hk ▸ h)]

theorem qtyOf_adjust_self (ps : List ContainerProduct) (k : Nat × Nat) (δ : Int)
    (h : hasPos ps k = true) : qtyOf (adjustQty ps k δ) k = qtyOf ps k + δ := by
  unfold qtyOf
  rw [findPos_adjust]
  rcases Option.isSome_iff_exists.mp h with ⟨cp, hf⟩
  have hk : posKey cp = k := by simpa using List.find?_some hf
  simp [hf, Option.map, if_pos hk]

theorem find?_append_of_some {α : Type} (p : α → Bool) (l₁ l₂ : List α) (x : α)
    (h : List.find? p l₁ = some x) : List.find? p (l₁ ++ l₂) = some x := by
  induction l₁ with
  | nil => cases h
  | cons a as ih =>
    by_cases ha : p a = true
    · rw [List.find?_cons_of_pos _ ha] at h
      rw [List.cons_append, List.find?_cons_of_pos _ ha]
      exact h
    · rw [List.find?_cons_of_neg _ (by simpa using ha)] at h
      rw [List.cons_append, List.find?_cons_of_neg _ (by simpa using ha)]
      exact ih h

theorem findPos_append_left (ps ps' : List ContainerProduct) (k : Nat × Nat)
    (h : hasPos ps k = true) : findPos (ps ++ ps') k = findPos ps k := by
  rcases Option.isSome_iff_exists.mp h with ⟨cp, hf⟩
  unfold findPos at *
  rw [find?_append_of_some _ _ _ _ hf, hf]

theorem findPos_append_new (ps : List ContainerProduct) (cp : ContainerProduct)
    (k : Nat × Nat) (h : hasPos ps k = false) :
    findPos (ps ++ [cp]) k = if posKey cp = k then some cp else none := by
  have hnone : findPos ps k = none := by
    unfold hasPos at h
    exact Option.not_isSome_iff_eq_none.mp (by simp [h])
  have hall : ∀ x ∈ ps, (fun q => decide (posKey q = k)) x = false := by
    intro x hx
    unfold findPos at hnone
    have := List.find?_eq_none.mp hnone x hx
    simpa using this
  unfold findPos
  rw [find?_append_of_none _ _ _ hall]
  by_cases hk : posKey cp = k
  · rw [List.find?_cons_of_pos _ (by rw [decide_eq_true_eq]; exact hk), if_pos hk]
  · rw [List.find?_cons_of_neg _ (by rw [decide_eq_true_eq]; exact hk), if_neg hk]
    rfl

theorem qtyOf_append_new (ps : List ContainerProduct) (cp : ContainerProduct)
    (k : Nat × Nat) (h : hasPos ps k = false) :
    qtyOf (ps ++ [cp]) k = if posKey cp = k then cp.quantity else 0 := by
  unfold qtyOf
  rw [findPos_append_new ps cp k h]
  by_cases hk : posKey cp = k <;> simp [hk]

theorem qtyOf_append_left (ps : List ContainerProduct) (cp : ContainerProduct)
    (k : Nat × Nat) (h : hasPos ps k = true) :
    qtyOf (ps ++ [cp]) k = qtyOf ps k := by
  unfold qtyOf
  rw [findPos_append_left ps [cp] k h]

theorem hasPos_append (ps : List ContainerProduct) (cp : ContainerProduct)
    (k : Nat × Nat) :
    hasPos (ps ++ [cp]) k = (hasPos ps k || decide (posKey cp = k)) := by
  by_cases h : hasPos ps k = true
  · unfold hasPos
    rw [findPos_append_left ps [cp] k h]
    simp [hasPos] at h
    simp [h]
  · have hf : hasPos ps k = false := by simpa using h
    unfold hasPos
    rw [findPos_append_new ps cp k hf]
    by_cases hk : posKey cp = k <;> simp [hk, hasPos] at hf ⊢ <;> simp [hf, hk]

theorem deletedOf_append_left (ps : List ContainerProduct) (cp : ContainerProduct)
    (k : Nat × Nat) (h : hasPos ps k = true) :
    deletedOf (ps ++ [cp]) k = deletedOf ps k := by
  unfold deletedOf
  rw [findPos_append_left ps [cp] k h]

theorem dtoQtyAt_cons (it : SaleItemDto) (rest : List SaleItemDto) (k : Nat × Nat) :
    dtoQtyAt (it :: rest) k =
      (if itemKey it = k then it.quantity else 0) + dtoQtyAt rest k := by
  unfold dtoQtyAt
  by_cases h : itemKey it = k <;> simp [List.filter_cons, h]

/-! Characterizations of the create / reverse loops. -/

theorem saleLoop_items (tid : Nat) (items : List SaleItemDto) (ps : List ContainerProduct) :
    (saleLoop tid items ps).1 = items.map (mkTxnItem tid) := by
  induction items generalizing ps with
  | nil => rfl
  | cons it rest ih =>
    rcases hrec : saleLoop tid rest (adjustQty ps (itemKey it) (-it.quantity)) with ⟨ti, ps', lg⟩
    have h2 := ih (adjustQty ps (itemKey it) (-it.quantity))
    rw [hrec] at h2
    simp only [saleLoop, hrec, List.map_cons]
    exact congrArg _ h2

theorem saleLoop_hasPos (tid : Nat) (items : List SaleItemDto) (ps : List ContainerProduct)
    (k : Nat × Nat) : hasPos (saleLoop tid items ps).2.1 k = hasPos ps k := by
  induction items generalizing ps with
  | nil => rfl
  | cons it rest ih =>
    rcases hrec : saleLoop tid rest (adjustQty ps (itemKey it) (-it.quantity)) with ⟨ti, ps', lg⟩
    have h2 := ih (adjustQty ps (itemKey it) (-it.quantity))
    rw [hrec] at h2
    simp only [saleLoop, hrec]
    rw [h2, hasPos_adjust]

theorem saleLoop_deleted (tid : Nat) (items : List SaleItemDto) (ps : List ContainerProduct)
    (k : Nat × Nat) : deletedOf (saleLoop tid items ps).2.1 k = deletedOf ps k := by
  induction items generalizing ps with
  | nil => rfl
  | cons it rest ih =>
    rcases hrec : saleLoop tid rest (adjustQty ps (itemKey it) (-it.quantity)) with ⟨ti, ps', lg⟩
    have h2 := ih (adjustQty ps (itemKey it) (-it.quantity))
    rw [hrec] at h2
    simp only [saleLoop, hrec]
    rw [h2, deletedOf_adjust]

theorem saleLoop_qty (tid : Nat) (items : List SaleItemDto) (ps : List ContainerProduct)
    (k : Nat × Nat) (hp : ∀ it ∈ items, hasPos ps (itemKey it) = true) :
    qtyOf (saleLoop tid items ps).2.1 k = qtyOf ps k - dtoQtyAt items k := by
  induction items generalizing ps with
  | nil => simp [saleLoop, dtoQtyAt]
  | cons it rest ih =>
    rcases hrec : saleLoop tid rest (adjustQty ps (itemKey it) (-it.quantity)) with ⟨ti, ps', lg⟩
    have hprest : ∀ u ∈ rest, hasPos (adjustQty ps (itemKey it) (-it.quantity)) (itemKey u) = true := by
      intro u hu
      rw [hasPos_adjust]
      exact hp u (List.mem_cons_of_mem it hu)
    have h2 := ih (adjustQty ps (itemKey it) (-it.quantity)) hprest
    rw [hrec] at h2
    simp only [saleLoop, hrec]
    rw [h2, dtoQtyAt_cons]
    by_cases hk : itemKey it = k
    · rw [if_pos hk, ← hk, qtyOf_adjust_self ps (itemKey it) _ (hp it (List.mem_cons_self it rest))]
      ring
    · rw [if_neg hk, qtyOf_adjust_ne ps (itemKey it) k _ (fun hke => hk hke.symm)]
      ring

theorem purchaseLoop_items (tid : Nat) (items : List SaleItemDto) (ps : List ContainerProduct) :
    (purchaseLoop tid items ps).1 = items.map (mkTxnItem tid) := by
  induction items generalizing ps with
  | nil => rfl
  | cons it rest ih =>
    cases hf : findPos ps (itemKey it) with
    | some cp =>
      rcases hrec : purchaseLoop tid rest (adjustQty ps (itemKey it) it.quantity) with ⟨ti, ps', lg⟩
      have h2 := ih (adjustQty ps (itemKey it) it.quantity)
      rw [hrec] at h2
      simp only [purchaseLoop, hf, hrec, List.map_cons]
      exact congrArg _ h2
    | none =>
      rcases hrec : purchaseLoop tid rest
          (ps ++ [⟨it.container_id.getD 0, it.product_id, it.quantity, false⟩]) with ⟨ti, ps', lg⟩
      have h2 := ih (ps ++ [⟨it.container_id.getD 0, it.product_id, it.quantity, false⟩])
      rw [hrec] at h2
      simp only [purchaseLoop, hf, hrec, List.map_cons]
      exact congrArg _ h2

theorem purchaseLoop_hasPos (tid : Nat) (items : List SaleItemDto) (ps : List ContainerProduct)
    (k : Nat × Nat) :
    hasPos (purchaseLoop tid items ps).2.1 k =
      (hasPos ps k || items.any (fun it => itemKey it = k)) := by
  induction items generalizing ps with
  | nil => simp [purchaseLoop]
  | cons it rest ih =>
    cases hf : findPos ps (itemKey it) with
    | some cp =>
      rcases hrec : purchaseLoop tid rest (adjustQty ps (itemKey it) it.quantity) with ⟨ti, ps', lg⟩
      have h2 := ih (adjustQty ps (itemKey it) it.quantity)
      rw [hrec] at h2
      simp only [purchaseLoop, hf, hrec]
      rw [h2, hasPos_adjust, List.any_cons]
      by_cases hk : itemKey it = k
      · have hpk : hasPos ps k = true := by
          rw [← hk]
          unfold hasPos
          rw [hf]
          rfl
        simp [hpk, hk]
      · simp [hk]
    | none =>
      rcases hrec : purchaseLoop tid rest
          (ps ++ [⟨it.container_id.getD 0, it.product_id, it.quantity, false⟩]) with ⟨ti, ps', lg⟩
      have h2 := ih (ps ++ [⟨it.container_id.getD 0, it.product_id, it.quantity, false⟩])
      rw [hrec] at h2
      simp only [purchaseLoop, hf, hrec]
      rw [h2, hasPos_append, List.any_cons]
      have hkey : posKey (⟨it.container_id.getD 0, it.product_id, it.quantity, false⟩ : ContainerProduct) = itemKey it := rfl
      rw [hkey]
      by_cases hk : itemKey it = k <;> simp [hk, Bool.or_assoc, Bool.or_comm]

theorem purchaseLoop_qty (tid : Nat) (items : List SaleItemDto) (ps : List ContainerProduct)
    (k : Nat × Nat) :
    qtyOf (purchaseLoop tid items ps).2.1 k = qtyOf ps k + dtoQtyAt items k := by
  induction items generalizing ps with
  | nil => simp [purchaseLoop, dtoQtyAt]
  | cons it rest ih =>
    cases hf : findPos ps (itemKey it) with
    | some cp =>
      rcases hrec : purchaseLoop tid rest (adjustQty ps (itemKey it) it.quantity) with ⟨ti, ps', lg⟩
      have h2 := ih (adjustQty ps (itemKey it) it.quantity)
      rw [hrec] at h2
      simp only [purchaseLoop, hf, hrec]
      rw [h2, dtoQtyAt_cons]
      have hpk : hasPos ps (itemKey it) = true := by
        unfold hasPos
        rw [hf]
        rfl
      by_cases hk : itemKey it = k
      · rw [if_pos hk, ← hk, qtyOf_adjust_self ps (itemKey it) _ hpk]
        ring
      · rw [if_neg hk, qtyOf_adjust_ne ps (itemKey it) k _ (fun hke => hk hke.symm)]
        ring
    | none =>
      rcases hrec : purchaseLoop tid rest
          (ps ++ [⟨it.container_id.getD 0, it.product_id, it.quantity, false⟩]) with ⟨ti, ps', lg⟩
      have h2 := ih (ps ++ [⟨it.container_id.getD 0, it.product_id, it.quantity, false⟩])
      rw [hrec] at h2
      simp only [purchaseLoop, hf, hrec]
      rw [h2, dtoQtyAt_cons]
      have hpk : hasPos ps (itemKey it) = false := by
        unfold hasPos
        rw [hf]
        rfl
      have hkey : posKey (⟨it.container_id.getD 0, it.product_id, it.quantity, false⟩ : ContainerProduct) = itemKey it := rfl
      by_cases hk : itemKey it = k
      · rw [if_pos hk, ← hk, qtyOf_append_new ps _ (itemKey it) hpk, hkey, if_pos rfl]
        have h0 : qtyOf ps (itemKey it) = 0 := by
          unfold qtyOf
          rw [hf]
        rw [h0]
        ring
      · rw [if_neg hk]
        have : qtyOf (ps ++ [⟨it.container_id.getD 0, it.product_id, it.quantity, false⟩]) k
            = qtyOf ps k := by
          by_cases hpk' : hasPos ps k = true
          · exact qtyOf_append_left ps _ k hpk'
          · have hnone : findPos ps k = none := by
              unfold hasPos at hpk'
              exact Option.not_isSome_iff_eq_none.mp (by simpa using hpk')
            rw [qtyOf_append_new ps _ k (by simpa using hpk'), hkey, if_neg hk]
            unfold qtyOf
            rw [hnone]
        rw [this]
        ring

theorem reverseLoop_qty (ty : TransactionType) (tid : Nat) (items : List SaleItemDto)
    (ps : List ContainerProduct) (k : Nat × Nat)
    (hc : ∀ it ∈ items, it.container_id.isSome = true)
    (hp : ∀ it ∈ items, hasPos ps (itemKey it) = true) :
    qtyOf (reverseLoop ty (items.map (mkTxnItem tid)) ps) k =
      qtyOf ps k + (if ty = .sale then dtoQtyAt items k else -(dtoQtyAt items k)) := by
  induction items generalizing ps with
  | nil =>
    cases ty <;> simp [reverseLoop, dtoQtyAt]
  | cons it rest ih =>
    rcases Option.isSome_iff_exists.mp (hc it (List.mem_cons_self it rest)) with ⟨cid, hcid⟩
    have hik : itemKey it = (it.product_id, cid) := by
      unfold itemKey
      rw [hcid]
      rfl
    have hpit := hp it (List.mem_cons_self it rest)
    have hpit' : hasPos ps (it.product_id, cid) = true := hik ▸ hpit
    rcases Option.isSome_iff_exists.mp hpit' with ⟨cp, hcp⟩
    have hmkc : (mkTxnItem tid it).container_id = it.container_id := rfl
    have hmkp : (mkTxnItem tid it).product_id = it.product_id := rfl
    have hmkq : (mkTxnItem tid it).quantity = it.quantity := rfl
    simp only [List.map_cons, reverseLoop, hmkc, hmkp, hmkq, hcid, hcp]
    have hrest : ∀ u ∈ rest,
        hasPos (adjustQty ps (it.product_id, cid)
          (if ty = .sale then it.quantity else -it.quantity)) (itemKey u) = true := by
      intro u hu
      rw [hasPos_adjust]
      exact hp u (List.mem_cons_of_mem it hu)
    rw [ih _ (fun u hu => hc u (List.mem_cons_of_mem it hu)) hrest, dtoQtyAt_cons, ← hik]
    by_cases hk : itemKey it = k
    · rw [if_pos hk, ← hk, qtyOf_adjust_self ps (itemKey it) _ hpit]
      cases ty <;> simp <;> ring
    · rw [if_neg hk, qtyOf_adjust_ne ps (itemKey it) k _ (fun hke => hk hke.symm)]
      cases ty <;> simp <;> ring

/-! Facts about the transaction-number generator. -/

theorem foldl_pick_mem (l : List Txn) (acc : Option Txn) (t : Txn)
    (h : l.foldl
      (fun acc t =>
        match acc with
        | none => some t
        | some u => if u.id < t.id then some t else some u) acc = some t) :
    acc = some t ∨ t ∈ l := by
  induction l generalizing acc with
  | nil => exact Or.inl h
  | cons x xs ih =>
    rcases ih _ h with hacc | hmem
    · cases acc with
      | none =>
        simp only at hacc
        exact Or.inr (List.mem_cons.mpr (Or.inl (Option.some.inj hacc).symm))
      | some u =>
        simp only at hacc
        by_cases hlt : u.id < x.id
        · rw [if_pos hlt] at hacc
          exact Or.inr (List.mem_cons.mpr (Or.inl (Option.some.inj hacc).symm))
        · rw [if_neg hlt] at hacc
          exact Or.inl hacc
    · exact Or.inr (List.mem_cons_of_mem x hmem)

theorem foldl_pick_ge (l : List Txn) (acc : Option Txn) (t : Txn)
    (h : l.foldl
      (fun acc t =>
        match acc with
        | none => some t
        | some u => if u.id < t.id then some t else some u) acc = some t) :
    (∀ u ∈ l, u.id ≤ t.id) ∧ (∀ a, acc = some a → a.id ≤ t.id) := by
  induction l generalizing acc with
  | nil =>
    refine ⟨fun u hu => absurd hu (List.not_mem_nil u), fun a ha => ?_⟩
    rw [List.foldl_nil, ha] at h
    exact le_of_eq (congrArg Txn.id (Option.some.inj h))
  | cons x xs ih =>
    rcases ih _ h with ⟨hall, hacc⟩
    constructor
    · intro u hu
      rcases List.mem_cons.mp hu with rfl | hu'
      · -- the head enters the accumulator as `pick acc u`
        cases acc with
        | none => exact hacc u rfl
        | some a =>
          by_cases hlt : a.id < u.id
          · exact hacc _ (by simp only [if_pos hlt])
          · exact le_trans (le_of_not_lt hlt) (hacc a (by simp only [if_neg hlt]))
      · exact hall u hu'
    · intro a ha
      cases acc with
      | none => cases ha
      | some b =>
        cases Option.some.inj ha
        by_cases hlt : a.id < x.id
        · exact le_trans (le_of_lt hlt) (hacc _ (by simp only [if_pos hlt]))
        · exact hacc a (by simp only [if_neg hlt])

theorem maxById_mem (l : List Txn) (t : Txn) (h : maxById l = some t) : t ∈ l := by
  rcases foldl_pick_mem l none t h with hacc | hmem
  · cases hacc
  · exact hmem

theorem maxById_ge (l : List Txn) (t : Txn) (h : maxById l = some t) :
    ∀ u ∈ l, u.id ≤ t.id :=
  (foldl_pick_ge l none t h).1

theorem foldl_pick_some (l : List Txn) (a : Txn) :
    ∃ t, l.foldl
      (fun acc t =>
        match acc with
        | none => some t
        | some u => if u.id < t.id then some t else some u) (some a) = some t := by
  induction l generalizing a with
  | nil => exact ⟨a, rfl⟩
  | cons x xs ih =>
    by_cases h : a.id < x.id
    · simpa [if_pos h] using ih x
    · simpa [if_neg h] using ih a

theorem maxById_none (l : List Txn) (h : maxById l = none) : l = [] := by
  cases l with
  | nil => rfl
  | cons x xs =>
    exfalso
    rcases foldl_pick_some xs x with ⟨t, ht⟩
    unfold maxById at h
    rw [List.foldl_cons] at h
    simp only at h
    rw [ht] at h
    cases h

/-- The generator always emits a formatted number with value at least 1. -/
theorem gen_form (db : DB) (ty : TransactionType) :
    ∃ n, 1 ≤ n ∧ generate_transaction_number db ty = formatNumber (tagOf ty) n := by
  unfold generate_transaction_number
  cases maxById (db.txns.filter (fun t => t.ttype = ty)) with
  | none =>
    refine ⟨1, le_rfl, ?_⟩
    rfl
  | some t =>
    show ∃ n, 1 ≤ n ∧
      (match parseNumber t.number with
        | some k => formatNumber (tagOf ty) (k + 1)
        | none => formatNumber (tagOf ty) 1) = formatNumber (tagOf ty) n
    cases parseNumber t.number with
    | none =>
      refine ⟨1, le_rfl, ?_⟩
      rfl
    | some k =>
      refine ⟨k + 1, Nat.le_add_left 1 k, ?_⟩
      rfl

/-- With the numbering invariant, the freshly generated number is strictly
greater than every existing number of the same type. -/
theorem gen_gt (db : DB) (ty : TransactionType)
    (hsort : db.txns.Pairwise (fun a b => a.id < b.id))
    (hform : ∀ t ∈ db.txns, ∃ n, 1 ≤ n ∧ t.number = formatNumber (tagOf t.ttype) n)
    (hpair : db.txns.Pairwise (fun a b =>
      a.ttype = b.ttype → numberValue a.number < numberValue b.number)) :
    ∀ t ∈ db.txns, t.ttype = ty →
      numberValue t.number < numberValue (generate_transaction_number db ty) := by
  intro t ht hty
  have htf : t ∈ db.txns.filter (fun u => u.ttype = ty) := by
    rw [List.mem_filter]
    exact ⟨ht, by simp [hty]⟩
  cases hm : maxById (db.txns.filter (fun u => u.ttype = ty)) with
  | none =>
    rw [maxById_none _ hm] at htf
    cases htf
  | some m =>
    have hmmem := maxById_mem _ _ hm
    have hmtxns : m ∈ db.txns := (List.mem_filter.mp hmmem).1
    have hmty : m.ttype = ty := by
      have := (List.mem_filter.mp hmmem).2
      simpa using this
    rcases hform m hmtxns with ⟨n, hn1, hnum⟩
    have hparse : parseNumber m.number = some n := by
      rw [hnum]
      exact parseNumber_formatNumber _ n
    have hval : numberValue m.number = n := by
      rw [hnum]
      exact numberValue_formatNumber _ n
    have hgen : generate_transaction_number db ty = formatNumber (tagOf ty) (n + 1) := by
      unfold generate_transaction_number
      rw [hm]
      show (match parseNumber m.number with
        | some k => formatNumber (tagOf ty) (k + 1)
        | none => formatNumber (tagOf ty) 1) = formatNumber (tagOf ty) (n + 1)
      rw [hparse]
    rw [hgen, numberValue_formatNumber]
    -- it remains to show the value of t is at most n, the value of m
    have hcomb := List.Pairwise.and hsort hpair
    rcases pairwise_two _ _ hcomb t ht m hmtxns with rfl | hrel | hrel
    · omega
    · have := hrel.2 (hty.trans hmty.symm)
      omega
    · have hle := maxById_ge _ _ hm t htf
      exact absurd hrel.1 (not_lt_of_le hle)

/-! Facts used to carry the reachable-state invariant across each operation. -/

theorem linkedPaidSum_zero (l : List Payment) (tid : Nat)
    (h : ∀ p ∈ l, isLinked tid p = false) : linkedPaidSum l tid = 0 := by
  induction l with
  | nil => rfl
  | cons x xs ih =>
    rw [linkedPaidSum_cons, h x (List.mem_cons_self x xs)]
    simpa using ih (fun p hp => h p (List.mem_cons_of_mem x hp))

theorem pairwise_key_map {α : Type} (l : List α) (f : α → α) (key : α → Nat)
    (hf : ∀ x, key (f x) = key x) (h : l.Pairwise (fun a b => key a < key b)) :
    (l.map f).Pairwise (fun a b => key a < key b) := by
  rw [List.pairwise_map]
  exact h.imp (fun hab => by rw [hf, hf]; exact hab)

theorem pairwise_num_map (l : List Txn) (f : Txn → Txn)
    (hty : ∀ t, (f t).ttype = t.ttype) (hnum : ∀ t, (f t).number = t.number)
    (h : l.Pairwise (fun a b =>
      a.ttype = b.ttype → numberValue a.number < numberValue b.number)) :
    (l.map f).Pairwise (fun a b =>
      a.ttype = b.ttype → numberValue a.number < numberValue b.number) := by
  rw [List.pairwise_map]
  exact h.imp (fun hab hab' => by
    rw [hnum, hnum]
    rw [hty, hty] at hab'
    exact hab hab')

theorem findTxn_some (ts : List Txn) (tid : Nat) (t : Txn)
    (h : findTxn ts tid = some t) : t ∈ ts ∧ t.id = tid ∧ t.deleted = false := by
  refine ⟨List.mem_of_find?_eq_some h, ?_⟩
  have := List.find?_some h
  simp only [Bool.and_eq_true, decide_eq_true_eq, Bool.not_eq_true'] at this
  exact this

theorem findTxnAny_some (ts : List Txn) (tid : Nat) (t : Txn)
    (h : findTxnAny ts tid = some t) : t ∈ ts ∧ t.id = tid := by
  refine ⟨List.mem_of_find?_eq_some h, ?_⟩
  have := List.find?_some h
  simpa using this

theorem findTxnAny_none (ts : List Txn) (tid : Nat)
    (h : findTxnAny ts tid = none) : ∀ t ∈ ts, t.id ≠ tid := by
  intro t ht
  have := List.find?_eq_none.mp h t ht
  simpa using this

theorem findPayment_some (ps : List Payment) (pid : Nat) (p : Payment)
    (h : findPayment ps pid = some p) : p ∈ ps ∧ p.id = pid ∧ p.deleted = false := by
  refine ⟨List.mem_of_find?_eq_some h, ?_⟩
  have := List.find?_some h
  simp only [Bool.and_eq_true, decide_eq_true_eq, Bool.not_eq_true'] at this
  exact this

theorem findContact_some (cs : List Contact) (cid : Nat) (c : Contact)
    (h : findContact cs cid = some c) : c ∈ cs ∧ c.id = cid ∧ c.deleted = false := by
  refine ⟨List.mem_of_find?_eq_some h, ?_⟩
  have := List.find?_some h
  simp only [Bool.and_eq_true, decide_eq_true_eq, Bool.not_eq_true'] at this
  exact this

/-- Invariant preservation for the common commit shape of create_sale and
create_purchase: a fresh header row, fresh item rows, at most one fresh
payment row, and bumped counters; positions, logs and contacts do not occur
in the invariant. -/
theorem inv_of_create_shape (db db' : DB) (ty : TransactionType) (cid : Nat)
    (items : List SaleItemDto) (subtotal tax discount total paid : Money)
    (hpaid : 0 ≤ paid)
    (htxns : db'.txns = db.txns ++
      [⟨db.nextTxnId, generate_transaction_number db ty, ty, cid,
        subtotal, tax, discount, total, paid, createStatus paid total, false⟩])
    (hitems : db'.txnItems = db.txnItems ++ items.map (mkTxnItem db.nextTxnId))
    (hpays : db'.payments = if 0 < paid then
        db.payments ++ [⟨db.nextPaymentId, some db.nextTxnId, none, paid, false⟩]
      else db.payments)
    (hntid : db'.nextTxnId = db.nextTxnId + 1)
    (hnpid : db'.nextPaymentId = if 0 < paid then
        db.nextPaymentId + 1 else db.nextPaymentId)
    (hI : Inv db) : Inv db' := by
  obtain ⟨hWF, hPaid, hStatus, hNum⟩ := hI
  have hWF' : WF db' := by
    constructor
    · rw [htxns]
      exact List.pairwise_append.mpr ⟨hWF.txnSorted, List.pairwise_singleton _ _,
        fun a ha b hb => by
          rcases List.mem_singleton.mp hb with rfl
          exact hWF.txnLt a ha⟩
    · intro t ht
      rw [htxns] at ht
      rw [hntid]
      rcases List.mem_append.mp ht with ht' | ht'
      · exact Nat.lt_succ_of_lt (hWF.txnLt t ht')
      · rcases List.mem_singleton.mp ht' with rfl
        exact Nat.lt_succ_self _
    · rw [hpays]
      by_cases hp : 0 < paid
      · rw [if_pos hp]
        exact List.pairwise_append.mpr ⟨hWF.paySorted, List.pairwise_singleton _ _,
          fun a ha b hb => by
            rcases List.mem_singleton.mp hb with rfl
            exact hWF.payLt a ha⟩
      · rw [if_neg hp]
        exact hWF.paySorted
    · intro p hp'
      rw [hpays] at hp'
      rw [hnpid]
      by_cases hp : 0 < paid
      · rw [if_pos hp] at hp' ⊢
        rcases List.mem_append.mp hp' with h' | h'
        · exact Nat.lt_succ_of_lt (hWF.payLt p h')
        · rcases List.mem_singleton.mp h' with rfl
          exact Nat.lt_succ_self _
      · rw [if_neg hp] at hp' ⊢
        exact hWF.payLt p hp'
    · intro it hit
      rw [hitems] at hit
      rw [hntid]
      rcases List.mem_append.mp hit with h' | h'
      · exact Nat.lt_succ_of_lt (hWF.itemLt it h')
      · rcases List.mem_map.mp h' with ⟨u, hu, rfl⟩
        exact Nat.lt_succ_self _
    · intro p hp' tid htid
      rw [hpays] at hp'
      rw [hntid]
      by_cases hp : 0 < paid
      · rw [if_pos hp] at hp'
        rcases List.mem_append.mp hp' with h' | h'
        · exact Nat.lt_succ_of_lt (hWF.payTidLt p h' tid htid)
        · rcases List.mem_singleton.mp h' with rfl
          rcases Option.mem_some_iff.mp htid with rfl
          exact Nat.lt_succ_self _
      · rw [if_neg hp] at hp'
        exact Nat.lt_succ_of_lt (hWF.payTidLt p hp' tid htid)
  refine ⟨hWF', ?_, ?_, ?_, ?_⟩
  · -- PaidInv
    intro t ht hdel
    rw [htxns] at ht
    rw [hpays]
    rcases List.mem_append.mp ht with ht' | ht'
    · have hne : db.nextTxnId ≠ t.id := fun he => absurd (he ▸ hWF.txnLt t ht') (lt_irrefl _)
      by_cases hp : 0 < paid
      · rw [if_pos hp, linkedPaidSum_append]
        have : isLinked t.id (⟨db.nextPaymentId, some db.nextTxnId, none, paid, false⟩ : Payment) = false := by
          simp [isLinked, hne]
        rw [this]
        simpa using hPaid t ht' hdel
      · rw [if_neg hp]
        exact hPaid t ht' hdel
    · rcases List.mem_singleton.mp ht' with rfl
      have hzero : linkedPaidSum db.payments db.nextTxnId = 0 := by
        apply linkedPaidSum_zero
        intro p hp'
        cases hptid : p.transaction_id with
        | none => simp [isLinked, hptid]
        | some ptid =>
          have := hWF.payTidLt p hp' ptid (by rw [hptid]; rfl)
          have hne : ptid ≠ db.nextTxnId := fun he => absurd (he ▸ this) (lt_irrefl _)
          simp [isLinked, hptid, hne]
      by_cases hp : 0 < paid
      · rw [if_pos hp, linkedPaidSum_append, hzero]
        simp [isLinked]
      · rw [if_neg hp, hzero]
        exact le_antisymm (not_lt.mp hp) hpaid
  · -- StatusInv
    intro t ht
    rw [htxns] at ht
    rcases List.mem_append.mp ht with ht' | ht'
    · exact hStatus t ht'
    · rcases List.mem_singleton.mp ht' with rfl
      exact Or.inl rfl
  · -- NumInv, form part
    intro t ht
    rw [htxns] at ht
    rcases List.mem_append.mp ht with ht' | ht'
    · exact hNum.1 t ht'
    · rcases List.mem_singleton.mp ht' with rfl
      exact gen_form db ty
  · -- NumInv, pairwise part
    rw [htxns]
    refine List.pairwise_append.mpr ⟨hNum.2, List.pairwise_singleton _ _,
      fun a ha b hb => ?_⟩
    rcases List.mem_singleton.mp hb with rfl
    intro hty
    exact gen_gt db ty hWF.txnSorted hNum.1 hNum.2 a ha hty

/-! Invariant preservation per operation. -/

theorem inv_create_sale (db : DB) (dto : CreateTransactionDto) (db' : DB) (tid : Nat)
    (hI : Inv db) (hV : dto.Valid) (h : create_sale db dto = .ok (db', tid)) : Inv db' := by
  unfold create_sale at h
  cases hc : findContact db.contacts dto.contact_id with
  | none => rw [hc] at h; cases h
  | some contact =>
    rw [hc] at h
    repeat' split at h
    all_goals try cases h
    all_goals
      exact inv_of_create_shape db _ .sale dto.contact_id dto.items
        (saleSubtotal dto.items) dto.tax_amount dto.discount_amount
        (saleSubtotal dto.items + dto.tax_amount - dto.discount_amount) dto.paid_amount
        hV.2.2.2.2 rfl
        (by
          show db.txnItems ++ (saleLoop db.nextTxnId dto.items db.positions).1 =
            db.txnItems ++ dto.items.map (mkTxnItem db.nextTxnId)
          rw [saleLoop_items])
        rfl rfl rfl hI

theorem inv_create_purchase (db : DB) (dto : CreateTransactionDto) (db' : DB) (tid : Nat)
    (hI : Inv db) (hV : dto.Valid) (h : create_purchase db dto = .ok (db', tid)) : Inv db' := by
  unfold create_purchase at h
  cases hc : findContact db.contacts dto.contact_id with
  | none => rw [hc] at h; cases h
  | some contact =>
    rw [hc] at h
    repeat' split at h
    all_goals try cases h
    all_goals
      exact inv_of_create_shape db _ .purchase dto.contact_id dto.items
        (saleSubtotal dto.items) dto.tax_amount dto.discount_amount
        (saleSubtotal dto.items + dto.tax_amount - dto.discount_amount) dto.paid_amount
        hV.2.2.2.2 rfl
        (by
          show db.txnItems ++ (purchaseLoop db.nextTxnId dto.items db.positions).1 =
            db.txnItems ++ dto.items.map (mkTxnItem db.nextTxnId)
          rw [purchaseLoop_items])
        rfl rfl rfl hI

theorem inv_record_shape (db : DB) (tid : Nat) (amount : Money) (txn : Txn)
    (cts' : List Contact) (htmem : txn ∈ db.txns) (htid : txn.id = tid)
    (htdel : txn.deleted = false) (hI : Inv db) :
    Inv { db with
      contacts := cts',
      txns := db.txns.map (fun t =>
        if t.id = tid then
          { t with paid_amount := txn.paid_amount + amount,
                   payment_status := recordStatus (txn.paid_amount + amount) t.total_amount }
        else t),
      payments := db.payments ++ [⟨db.nextPaymentId, some tid, none, amount, false⟩],
      nextPaymentId := db.nextPaymentId + 1 } := by
  obtain ⟨hWF, hPaid, hStatus, hNum⟩ := hI
  set f : Txn → Txn := fun t =>
    if t.id = tid then
      { t with paid_amount := txn.paid_amount + amount,
               payment_status := recordStatus (txn.paid_amount + amount) t.total_amount }
    else t with hfdef
  have hfid : ∀ t, (f t).id = t.id := by
    intro t
    by_cases ht : t.id = tid <;> simp [hfdef, ht]
  have hfty : ∀ t, (f t).ttype = t.ttype := by
    intro t
    by_cases ht : t.id = tid <;> simp [hfdef, ht]
  have hfnum : ∀ t, (f t).number = t.number := by
    intro t
    by_cases ht : t.id = tid <;> simp [hfdef, ht]
  have hfdel : ∀ t, (f t).deleted = t.deleted := by
    intro t
    by_cases ht : t.id = tid <;> simp [hfdef, ht]
  refine ⟨⟨?_, ?_, ?_, ?_, ?_, ?_⟩, ?_, ?_, ?_, ?_⟩
  · exact pairwise_key_map _ f Txn.id hfid hWF.txnSorted
  · intro t' ht'
    rcases List.mem_map.mp ht' with ⟨t, ht, rfl⟩
    rw [hfid]
    exact hWF.txnLt t ht
  · exact List.pairwise_append.mpr ⟨hWF.paySorted, List.pairwise_singleton _ _,
      fun a ha b hb => by
        rcases List.mem_singleton.mp hb with rfl
        exact hWF.payLt a ha⟩
  · intro p hp
    rcases List.mem_append.mp hp with hp' | hp'
    · exact Nat.lt_succ_of_lt (hWF.payLt p hp')
    · rcases List.mem_singleton.mp hp' with rfl
      exact Nat.lt_succ_self _
  · intro it hit
    exact hWF.itemLt it hit
  · intro p hp ptid hptid
    rcases List.mem_append.mp hp with hp' | hp'
    · exact hWF.payTidLt p hp' ptid hptid
    · rcases List.mem_singleton.mp hp' with rfl
      rcases Option.mem_some_iff.mp hptid with rfl
      rw [← htid]
      exact hWF.txnLt txn htmem
  · -- PaidInv
    intro t' ht' hdel
    rcases List.mem_map.mp ht' with ⟨t, ht, rfl⟩
    rw [hfid]
    rw [hfdel t] at hdel
    by_cases hteq : t.id = tid
    · have hteqtxn : t = txn := by
        rcases pairwise_two _ _ hWF.txnSorted t ht txn htmem with he | hlt | hlt
        · exact he
        · rw [hteq, htid] at hlt
          exact absurd hlt (lt_irrefl _)
        · rw [hteq, htid] at hlt
          exact absurd hlt (lt_irrefl _)
      have hpt := hPaid t ht hdel
      rw [hteq, linkedPaidSum_append]
      have hl : isLinked tid (⟨db.nextPaymentId, some tid, none, amount, false⟩ : Payment) = true := by
        simp [isLinked]
      rw [hl]
      show (f t).paid_amount = linkedPaidSum db.payments tid + amount
      simp only [hfdef, if_pos hteq]
      rw [← hteq, ← hpt, hteqtxn]
    · rw [linkedPaidSum_append]
      have hl : isLinked t.id (⟨db.nextPaymentId, some tid, none, amount, false⟩ : Payment) = false := by
        simp only [isLinked, Bool.not_false, Bool.true_and, decide_eq_false_iff_not]
        intro he
        exact hteq (Option.some.inj he).symm
      rw [hl]
      show (f t).paid_amount = linkedPaidSum db.payments t.id + 0
      simp only [hfdef, if_neg hteq]
      rw [add_zero]
      exact hPaid t ht hdel
  · -- StatusInv
    intro t' ht'
    rcases List.mem_map.mp ht' with ⟨t, ht, rfl⟩
    by_cases hteq : t.id = tid
    · right
      show (f t).payment_status = recordStatus (f t).paid_amount (f t).total_amount
      simp only [hfdef, if_pos hteq]
    · have hid : f t = t := by simp [hfdef, if_neg hteq]
      rw [hid]
      exact hStatus t ht
  · intro t' ht'
    rcases List.mem_map.mp ht' with ⟨t, ht, rfl⟩
    rw [hfnum, hfty]
    exact hNum.1 t ht
  · exact pairwise_num_map _ f hfty hfnum hNum.2

theorem inv_record_payment (db : DB) (tid : Nat) (dto : CreatePaymentDto) (db' : DB)
    (hI : Inv db) (h : record_payment db tid dto = .ok db') : Inv db' := by
  unfold record_payment at h
  cases hf : findTxn db.txns tid with
  | none => rw [hf] at h; cases h
  | some txn =>
    rw [hf] at h
    obtain ⟨htmem, htid, htdel⟩ := findTxn_some db.txns tid txn hf
    repeat' split at h
    all_goals try cases h
    all_goals rename_i acc u heq h1 h2 h3 h4
    all_goals cases Option.some.inj heq
    all_goals exact inv_record_shape db tid dto.amount txn _ htmem htid htdel hI

theorem inv_delete_shape (db : DB) (tid : Nat) (ps' : List ContainerProduct)
    (cts' : List Contact) (hI : Inv db) :
    Inv { db with
      positions := ps',
      contacts := cts',
      txns := db.txns.map (fun t => if t.id = tid then { t with deleted := true } else t),
      txnItems := db.txnItems.map (fun it =>
        if it.transaction_id = tid then { it with deleted := true } else it),
      payments := db.payments.map (fun p =>
        if p.transaction_id = some tid then { p with deleted := true } else p) } := by
  obtain ⟨hWF, hPaid, hStatus, hNum⟩ := hI
  set f : Txn → Txn := fun t => if t.id = tid then { t with deleted := true } else t with hfdef
  set g : Payment → Payment :=
    fun p => if p.transaction_id = some tid then { p with deleted := true } else p with hgdef
  have hfid : ∀ t, (f t).id = t.id := by
    intro t
    by_cases ht : t.id = tid <;> simp [hfdef, ht]
  have hfty : ∀ t, (f t).ttype = t.ttype := by
    intro t
    by_cases ht : t.id = tid <;> simp [hfdef, ht]
  have hfnum : ∀ t, (f t).number = t.number := by
    intro t
    by_cases ht : t.id = tid <;> simp [hfdef, ht]
  have hfpaid : ∀ t, (f t).paid_amount = t.paid_amount := by
    intro t
    by_cases ht : t.id = tid <;> simp [hfdef, ht]
  have hfst : ∀ t, (f t).payment_status = t.payment_status := by
    intro t
    by_cases ht : t.id = tid <;> simp [hfdef, ht]
  have hfto : ∀ t, (f t).total_amount = t.total_amount := by
    intro t
    by_cases ht : t.id = tid <;> simp [hfdef, ht]
  have hgid : ∀ p, (g p).id = p.id := by
    intro p
    by_cases hp : p.transaction_id = some tid <;> simp [hgdef, hp]
  have hgtid : ∀ p, (g p).transaction_id = p.transaction_id := by
    intro p
    by_cases hp : p.transaction_id = some tid <;> simp [hgdef, hp]
  refine ⟨⟨?_, ?_, ?_, ?_, ?_, ?_⟩, ?_, ?_, ?_, ?_⟩
  · exact pairwise_key_map _ f Txn.id hfid hWF.txnSorted
  · intro t' ht'
    rcases List.mem_map.mp ht' with ⟨t, ht, rfl⟩
    rw [hfid]
    exact hWF.txnLt t ht
  · exact pairwise_key_map _ g Payment.id hgid hWF.paySorted
  · intro p' hp'
    rcases List.mem_map.mp hp' with ⟨p, hp, rfl⟩
    rw [hgid]
    exact hWF.payLt p hp
  · intro it' hit'
    rcases List.mem_map.mp hit' with ⟨it, hit, rfl⟩
    have : (if it.transaction_id = tid then { it with deleted := true } else it).transaction_id
        = it.transaction_id := by
      by_cases h2 : it.transaction_id = tid <;> simp [h2]
    rw [this]
    exact hWF.itemLt it hit
  · intro p' hp' ptid hptid
    rcases List.mem_map.mp hp' with ⟨p, hp, rfl⟩
    rw [hgtid] at hptid
    exact hWF.payTidLt p hp ptid hptid
  · -- PaidInv
    intro t' ht' hdel
    rcases List.mem_map.mp ht' with ⟨t, ht, rfl⟩
    by_cases hteq : t.id = tid
    · exfalso
      have : (f t).deleted = true := by simp [hfdef, hteq]
      rw [hdel] at this
      cases this
    · have hft : f t = t := by simp [hfdef, hteq]
      rw [hft] at hdel ⊢
      rw [linkedPaidSum_congr db.payments g t.id ?_]
      · exact hPaid t ht hdel
      · intro p hp
        constructor
        · by_cases hpt : p.transaction_id = some tid
          · have h1 : isLinked t.id (g p) = false := by
              simp [hgdef, hpt, isLinked]
            have h2 : isLinked t.id p = false := by
              simp only [isLinked, hpt, Bool.and_eq_false_iff]
              right
              simp only [decide_eq_false_iff_not]
              intro he
              exact hteq (Option.some.inj he).symm
            rw [h1, h2]
          · have : g p = p := by simp [hgdef, hpt]
            rw [this]
        · intro _
          by_cases hpt : p.transaction_id = some tid <;> simp [hgdef, hpt]
  · -- StatusInv
    intro t' ht'
    rcases List.mem_map.mp ht' with ⟨t, ht, rfl⟩
    rw [hfst, hfpaid, hfto]
    exact hStatus t ht
  · intro t' ht'
    rcases List.mem_map.mp ht' with ⟨t, ht, rfl⟩
    rw [hfnum, hfty]
    exact hNum.1 t ht
  · exact pairwise_num_map _ f hfty hfnum hNum.2

theorem inv_delete_transaction (db : DB) (tid : Nat) (db' : DB)
    (hI : Inv db) (h : delete_transaction db tid = .ok db') : Inv db' := by
  unfold delete_transaction at h
  cases hf : findTxn db.txns tid with
  | none => rw [hf] at h; cases h
  | some txn =>
    rw [hf] at h
    repeat' split at h
    all_goals try cases h
    all_goals exact inv_delete_shape db tid _ _ hI

theorem inv_payments_create_shape (db : DB) (tid : Nat) (ccid : Option Nat)
    (amount : Money) (htl : ∃ txn ∈ db.txns, txn.id = tid) (hI : Inv db) :
    Inv { db with
      payments := db.payments ++ [⟨db.nextPaymentId, some tid, ccid, amount, false⟩],
      txns := db.txns.map (fun t =>
        if t.id = tid then
          { t with paid_amount := t.paid_amount + amount,
                   payment_status := recordStatus (t.paid_amount + amount) t.total_amount }
        else t),
      nextPaymentId := db.nextPaymentId + 1 } := by
  obtain ⟨hWF, hPaid, hStatus, hNum⟩ := hI
  set f : Txn → Txn := fun t =>
    if t.id = tid then
      { t with paid_amount := t.paid_amount + amount,
               payment_status := recordStatus (t.paid_amount + amount) t.total_amount }
    else t with hfdef
  have hfid : ∀ t, (f t).id = t.id := by
    intro t
    by_cases ht : t.id = tid <;> simp [hfdef, ht]
  have hfty : ∀ t, (f t).ttype = t.ttype := by
    intro t
    by_cases ht : t.id = tid <;> simp [hfdef, ht]
  have hfnum : ∀ t, (f t).number = t.number := by
    intro t
    by_cases ht : t.id = tid <;> simp [hfdef, ht]
  have hfdel : ∀ t, (f t).deleted = t.deleted := by
    intro t
    by_cases ht : t.id = tid <;> simp [hfdef, ht]
  refine ⟨⟨?_, ?_, ?_, ?_, ?_, ?_⟩, ?_, ?_, ?_, ?_⟩
  · exact pairwise_key_map _ f Txn.id hfid hWF.txnSorted
  · intro t' ht'
    rcases List.mem_map.mp ht' with ⟨t, ht, rfl⟩
    rw [hfid]
    exact hWF.txnLt t ht
  · exact List.pairwise_append.mpr ⟨hWF.paySorted, List.pairwise_singleton _ _,
      fun a ha b hb => by
        rcases List.mem_singleton.mp hb with rfl
        exact hWF.payLt a ha⟩
  · intro p hp
    rcases List.mem_append.mp hp with hp' | hp'
    · exact Nat.lt_succ_of_lt (hWF.payLt p hp')
    · rcases List.mem_singleton.mp hp' with rfl
      exact Nat.lt_succ_self _
  · intro it hit
    exact hWF.itemLt it hit
  · intro p hp ptid hptid
    rcases List.mem_append.mp hp with hp' | hp'
    · exact hWF.payTidLt p hp' ptid hptid
    · rcases List.mem_singleton.mp hp' with rfl
      rcases Option.mem_some_iff.mp hptid with rfl
      rcases htl with ⟨txn, hmem, hid⟩
      rw [← hid]
      exact hWF.txnLt txn hmem
  · -- PaidInv
    intro t' ht' hdel
    rcases List.mem_map.mp ht' with ⟨t, ht, rfl⟩
    rw [hfdel t] at hdel
    show (f t).paid_amount = linkedPaidSum
      (db.payments ++ [⟨db.nextPaymentId, some tid, ccid, amount, false⟩]) (f t).id
    rw [hfid, linkedPaidSum_append]
    by_cases hteq : t.id = tid
    · have hl : isLinked t.id (⟨db.nextPaymentId, some tid, ccid, amount, false⟩ : Payment) = true := by
        simp [isLinked, hteq]
      rw [hl]
      show (f t).paid_amount = linkedPaidSum db.payments t.id + amount
      simp only [hfdef, if_pos hteq]
      rw [hPaid t ht hdel]
    · have hl : isLinked t.id (⟨db.nextPaymentId, some tid, ccid, amount, false⟩ : Payment) = false := by
        simp only [isLinked, Bool.not_false, Bool.true_and, decide_eq_false_iff_not]
        intro he
        exact hteq (Option.some.inj he).symm
      rw [hl]
      show (f t).paid_amount = linkedPaidSum db.payments t.id + 0
      simp only [hfdef, if_neg hteq]
      rw [add_zero]
      exact hPaid t ht hdel
  · -- StatusInv
    intro t' ht'
    rcases List.mem_map.mp ht' with ⟨t, ht, rfl⟩
    by_cases hteq : t.id = tid
    · right
      show (f t).payment_status = recordStatus (f t).paid_amount (f t).total_amount
      simp only [hfdef, if_pos hteq]
    · have hid2 : f t = t := by simp [hfdef, if_neg hteq]
      rw [hid2]
      exact hStatus t ht
  · intro t' ht'
    rcases List.mem_map.mp ht' with ⟨t, ht, rfl⟩
    rw [hfnum, hfty]
    exact hNum.1 t ht
  · exact pairwise_num_map _ f hfty hfnum hNum.2

theorem inv_payments_create_commit (db : DB) (dto : CreateManualPaymentDto)
    (hlink : ∀ tid ∈ dto.transaction_id, ∃ txn ∈ db.txns, txn.id = tid)
    (hI : Inv db) : Inv (payments_create_commit db dto) := by
  unfold payments_create_commit
  cases hcase : dto.transaction_id with
  | some tid =>
    exact inv_payments_create_shape db tid dto.contact_id dto.amount
      (hlink tid (by rw [hcase]; rfl)) hI
  | none =>
    obtain ⟨hWF, hPaid, hStatus, hNum⟩ := hI
    refine ⟨⟨?_, ?_, ?_, ?_, ?_, ?_⟩, ?_, ?_, ?_, ?_⟩
    · exact hWF.txnSorted
    · exact hWF.txnLt
    · exact List.pairwise_append.mpr ⟨hWF.paySorted, List.pairwise_singleton _ _,
        fun a ha b hb => by
          rcases List.mem_singleton.mp hb with rfl
          exact hWF.payLt a ha⟩
    · intro p hp
      rcases List.mem_append.mp hp with hp' | hp'
      · exact Nat.lt_succ_of_lt (hWF.payLt p hp')
      · rcases List.mem_singleton.mp hp' with rfl
        exact Nat.lt_succ_self _
    · exact hWF.itemLt
    · intro p hp ptid hptid
      rcases List.mem_append.mp hp with hp' | hp'
      · exact hWF.payTidLt p hp' ptid hptid
      · rcases List.mem_singleton.mp hp' with rfl
        exact absurd hptid (by simp)
    · intro t ht hdel
      show t.paid_amount = linkedPaidSum
        (db.payments ++ [⟨db.nextPaymentId, none, dto.contact_id, dto.amount, false⟩]) t.id
      rw [linkedPaidSum_append]
      have hl : isLinked t.id (⟨db.nextPaymentId, none, dto.contact_id, dto.amount, false⟩ : Payment) = false := by
        simp [isLinked]
      rw [hl]
      show t.paid_amount = linkedPaidSum db.payments t.id + 0
      rw [add_zero]
      exact hPaid t ht hdel
    · exact hStatus
    · exact hNum.1
    · exact hNum.2

theorem inv_payments_create (db : DB) (dto : CreateManualPaymentDto) (db' : DB)
    (hI : Inv db) (h : payments_create db dto = .ok db') : Inv db' := by
  have hstage : ∀ db'', payments_create_stage2 db dto = .ok db'' →
      (∀ tid ∈ dto.transaction_id, ∃ txn ∈ db.txns, txn.id = tid) → Inv db'' := by
    intro db'' h2 hlink
    unfold payments_create_stage2 at h2
    cases hcc : dto.contact_id with
    | some cid =>
      rw [hcc] at h2
      have h3 : (match findContact db.contacts cid with
          | none => Except.error Err.notFound
          | some _ => Except.ok (payments_create_commit db dto)) = Except.ok db'' := h2
      cases hfc : findContact db.contacts cid with
      | none => rw [hfc] at h3; cases h3
      | some c =>
        rw [hfc] at h3
        cases h3
        exact inv_payments_create_commit db dto hlink hI
    | none =>
      rw [hcc] at h2
      cases h2
      exact inv_payments_create_commit db dto hlink hI
  unfold payments_create at h
  cases hct : dto.transaction_id with
  | some tid =>
    rw [hct] at h
    have h3 : (match findTxn db.txns tid with
        | none => Except.error Err.notFound
        | some _ => payments_create_stage2 db dto) = Except.ok db' := h
    cases hft : findTxn db.txns tid with
    | none => rw [hft] at h3; cases h3
    | some txn =>
      rw [hft] at h3
      refine hstage db' h3 ?_
      intro tid' htid'
      rw [hct] at htid'
      obtain ⟨hmem, hid, _⟩ := findTxn_some db.txns tid txn hft
      rcases Option.mem_some_iff.mp htid' with rfl
      exact ⟨txn, hmem, hid⟩
  | none =>
    rw [hct] at h
    have h3 : (if (!strProvided dto.description) = true then Except.error Err.validation
        else if (!strProvided dto.category) = true then Except.error Err.validation
        else if dto.ptype.isNone = true then Except.error Err.validation
        else payments_create_stage2 db dto) = Except.ok db' := h
    repeat' split at h3
    all_goals try cases h3
    all_goals
      refine hstage db' h3 ?_
    all_goals
      intro tid' htid'
    all_goals rw [hct] at htid'
    all_goals cases htid'

theorem inv_payments_remove (db : DB) (pid : Nat) (db' : DB)
    (hI : Inv db) (h : payments_remove db pid = .ok db') : Inv db' := by
  obtain ⟨hWF, hPaid, hStatus, hNum⟩ := hI
  unfold payments_remove at h
  cases hfp : findPayment db.payments pid with
  | none => rw [hfp] at h; cases h
  | some pay =>
    rw [hfp] at h
    cases h
    obtain ⟨hpmem, hpid, hpdel⟩ := findPayment_some db.payments pid pay hfp
    have huniq : ∀ p ∈ db.payments, p.id = pid → p = pay := by
      intro p hp hpe
      rcases pairwise_two _ _ hWF.paySorted p hp pay hpmem with he | hlt | hlt
      · exact he
      · rw [hpe, hpid] at hlt
        exact absurd hlt (lt_irrefl _)
      · rw [hpe, hpid] at hlt
        exact absurd hlt (lt_irrefl _)
    set qpay : Payment := { pay with deleted := true } with hqdef
    have hmapeq : db.payments.map (fun p => if p.id = pid then { p with deleted := true } else p)
        = db.payments.map (fun p => if p.id = pid then qpay else p) := by
      apply List.map_congr_left
      intro p hp
      by_cases hpe : p.id = pid
      · rw [if_pos hpe, if_pos hpe, huniq p hp hpe]
      · rw [if_neg hpe, if_neg hpe]
    have hsum : ∀ tid' : Nat,
        linkedPaidSum (db.payments.map
          (fun p => if p.id = pid then { p with deleted := true } else p)) tid'
        = linkedPaidSum db.payments tid'
          - (if isLinked tid' pay then pay.amount else 0) := by
      intro tid'
      rw [hmapeq, linkedPaidSum_replace db.payments pid qpay pay tid' hWF.paySorted hpmem hpid]
      have hq : isLinked tid' qpay = false := by simp [isLinked, hqdef]
      rw [hq]
      show linkedPaidSum db.payments tid' - _ + 0 = _
      rw [add_zero]
    have hgid : ∀ p : Payment,
        ((fun p => if p.id = pid then { p with deleted := true } else p) p).id = p.id := by
      intro p
      by_cases hpe : p.id = pid <;> simp [hpe]
    have hgtid : ∀ p : Payment,
        ((fun p => if p.id = pid then { p with deleted := true } else p) p).transaction_id
          = p.transaction_id := by
      intro p
      by_cases hpe : p.id = pid <;> simp [hpe]
    cases hpt : pay.transaction_id with
    | none =>
      show Inv { db with
        txns := db.txns,
        payments := db.payments.map (fun p =>
          if p.id = pid then { p with deleted := true } else p) }
      refine ⟨⟨hWF.txnSorted, hWF.txnLt, ?_, ?_, hWF.itemLt, ?_⟩, ?_, hStatus, hNum.1, hNum.2⟩
      · exact pairwise_key_map _ _ Payment.id hgid hWF.paySorted
      · intro p' hp'
        rcases List.mem_map.mp hp' with ⟨p, hp, rfl⟩
        rw [hgid]
        exact hWF.payLt p hp
      · intro p' hp' ptid hptid
        rcases List.mem_map.mp hp' with ⟨p, hp, rfl⟩
        rw [hgtid p] at hptid
        exact hWF.payTidLt p hp ptid hptid
      · intro t ht hdel
        rw [hsum t.id]
        have hl : isLinked t.id pay = false := by simp [isLinked, hpt]
        rw [hl]
        show t.paid_amount = linkedPaidSum db.payments t.id - 0
        rw [sub_zero]
        exact hPaid t ht hdel
    | some tid =>
      show Inv { db with
        txns := match findTxnAny db.txns tid with
          | some _ => db.txns.map (fun t =>
              if t.id = tid then
                { t with paid_amount := t.paid_amount - pay.amount,
                         payment_status :=
                           recordStatus (t.paid_amount - pay.amount) t.total_amount }
              else t)
          | none => db.txns,
        payments := db.payments.map (fun p =>
          if p.id = pid then { p with deleted := true } else p) }
      cases hT : findTxnAny db.txns tid with
      | none =>
        have hne := findTxnAny_none db.txns tid hT
        refine ⟨⟨hWF.txnSorted, hWF.txnLt, ?_, ?_, hWF.itemLt, ?_⟩, ?_, hStatus, hNum.1, hNum.2⟩
        · exact pairwise_key_map _ _ Payment.id hgid hWF.paySorted
        · intro p' hp'
          rcases List.mem_map.mp hp' with ⟨p, hp, rfl⟩
          rw [hgid]
          exact hWF.payLt p hp
        · intro p' hp' ptid hptid
          rcases List.mem_map.mp hp' with ⟨p, hp, rfl⟩
          rw [hgtid p] at hptid
          exact hWF.payTidLt p hp ptid hptid
        · intro t ht hdel
          rw [hsum t.id]
          have hl : isLinked t.id pay = false := by
            simp only [isLinked, hpt, Bool.and_eq_false_iff]
            right
            simp only [decide_eq_false_iff_not]
            intro he
            exact hne t ht (Option.some.inj he).symm
          rw [hl]
          show t.paid_amount = linkedPaidSum db.payments t.id - 0
          rw [sub_zero]
          exact hPaid t ht hdel
      | some t0 =>
        set f : Txn → Txn := fun t =>
          if t.id = tid then
            { t with paid_amount := t.paid_amount - pay.amount,
                     payment_status := recordStatus (t.paid_amount - pay.amount) t.total_amount }
          else t with hfdef
        have hfid : ∀ t, (f t).id = t.id := by
          intro t
          by_cases ht : t.id = tid <;> simp [hfdef, ht]
        have hfty : ∀ t, (f t).ttype = t.ttype := by
          intro t
          by_cases ht : t.id = tid <;> simp [hfdef, ht]
        have hfnum : ∀ t, (f t).number = t.number := by
          intro t
          by_cases ht : t.id = tid <;> simp [hfdef, ht]
        have hfdel : ∀ t, (f t).deleted = t.deleted := by
          intro t
          by_cases ht : t.id = tid <;> simp [hfdef, ht]
        refine ⟨⟨?_, ?_, ?_, ?_, hWF.itemLt, ?_⟩, ?_, ?_, ?_, ?_⟩
        · exact pairwise_key_map _ f Txn.id hfid hWF.txnSorted
        · intro t' ht'
          rcases List.mem_map.mp ht' with ⟨t, ht, rfl⟩
          rw [hfid]
          exact hWF.txnLt t ht
        · exact pairwise_key_map _ _ Payment.id hgid hWF.paySorted
        · intro p' hp'
          rcases List.mem_map.mp hp' with ⟨p, hp, rfl⟩
          rw [hgid]
          exact hWF.payLt p hp
        · intro p' hp' ptid hptid
          rcases List.mem_map.mp hp' with ⟨p, hp, rfl⟩
          rw [hgtid p] at hptid
          exact hWF.payTidLt p hp ptid hptid
        · -- PaidInv
          intro t' ht' hdel
          rcases List.mem_map.mp ht' with ⟨t, ht, rfl⟩
          rw [hfdel t] at hdel
          show (f t).paid_amount = linkedPaidSum _ (f t).id
          rw [hfid, hsum t.id]
          by_cases hteq : t.id = tid
          · have hl : isLinked t.id pay = true := by
              simp [isLinked, hpt, hpdel, hteq]
            rw [hl]
            show (f t).paid_amount = linkedPaidSum db.payments t.id - pay.amount
            simp only [hfdef, if_pos hteq]
            rw [hPaid t ht hdel]
          · have hl : isLinked t.id pay = false := by
              simp only [isLinked, hpt, Bool.and_eq_false_iff]
              right
              simp only [decide_eq_false_iff_not]
              intro he
              exact hteq (Option.some.inj he).symm
            rw [hl]
            show (f t).paid_amount = linkedPaidSum db.payments t.id - 0
            simp only [hfdef, if_neg hteq]
            rw [sub_zero]
            exact hPaid t ht hdel
        · intro t' ht'
          rcases List.mem_map.mp ht' with ⟨t, ht, rfl⟩
          by_cases hteq : t.id = tid
          · right
            show (f t).payment_status = recordStatus (f t).paid_amount (f t).total_amount
            simp only [hfdef, if_pos hteq]
          · have hid2 : f t = t := by simp [hfdef, if_neg hteq]
            rw [hid2]
            exact hStatus t ht
        · intro t' ht'
          rcases List.mem_map.mp ht' with ⟨t, ht, rfl⟩
          rw [hfnum, hfty]
          exact hNum.1 t ht
        · exact pairwise_num_map _ f hfty hfnum hNum.2

theorem sigmap_id (ts : List Txn) : SigMap ts ts := by
  refine ⟨id, by simp, ?_, ?_, ?_, ?_, ?_, ?_⟩ <;> intro t <;> simp

theorem sigmap_patch (ts : List Txn) (tid : Nat) (X : Txn → Money) :
    SigMap ts (ts.map (fun t =>
      if t.id = tid then
        { t with paid_amount := X t,
                 payment_status := recordStatus (X t) t.total_amount }
      else t)) := by
  refine ⟨_, rfl, ?_, ?_, ?_, ?_, ?_, ?_⟩ <;> intro t
  · by_cases ht : t.id = tid <;> simp [ht]
  · by_cases ht : t.id = tid <;> simp [ht]
  · by_cases ht : t.id = tid <;> simp [ht]
  · by_cases ht : t.id = tid <;> simp [ht]
  · by_cases ht : t.id = tid <;> simp [ht]
  · by_cases ht : t.id = tid
    · right
      simp [ht]
    · left
      simp [ht]

theorem sigmap_trans (t1 t2 t3 : List Txn) (h12 : SigMap t1 t2) (h23 : SigMap t2 t3) :
    SigMap t1 t3 := by
  obtain ⟨F, hFeq, hFid, hFty, hFnum, hFdel, hFtot, hFst⟩ := h12
  obtain ⟨G, hGeq, hGid, hGty, hGnum, hGdel, hGtot, hGst⟩ := h23
  refine ⟨G ∘ F, ?_, ?_, ?_, ?_, ?_, ?_, ?_⟩
  · rw [hGeq, hFeq, List.map_map]
  · intro t
    simp only [Function.comp_apply]
    rw [hGid, hFid]
  · intro t
    simp only [Function.comp_apply]
    rw [hGty, hFty]
  · intro t
    simp only [Function.comp_apply]
    rw [hGnum, hFnum]
  · intro t
    simp only [Function.comp_apply]
    rw [hGdel, hFdel]
  · intro t
    simp only [Function.comp_apply]
    rw [hGtot, hFtot]
  · intro t
    simp only [Function.comp_apply]
    rcases hGst (F t) with ⟨hst, hpa⟩ | hrec
    · rcases hFst t with ⟨hst2, hpa2⟩ | hrec2
      · exact Or.inl ⟨hst.trans hst2, hpa.trans hpa2⟩
      · right
        rw [hst, hpa, hGtot, hrec2]
    · exact Or.inr hrec

theorem sigmap_dec (ts : List Txn) (pay : Payment) (ntid : Option Nat) :
    SigMap ts (decOldTxns ts pay ntid) := by
  unfold decOldTxns
  split
  next ot heq =>
    split
    next hne =>
      split
      next t0 heq2 =>
        exact sigmap_patch ts ot (fun t => t.paid_amount - pay.amount)
      next _ => exact sigmap_id ts
    next _ => exact sigmap_id ts
  next => exact sigmap_id ts

theorem sigmap_rederive (ts : List Txn) (P : List Payment) (ntid : Option Nat) :
    SigMap ts (rederiveTxns ts P ntid) := by
  unfold rederiveTxns
  split
  next nt =>
    split
    next t0 heq => exact sigmap_patch ts nt (fun _ => linkedPaidSum P nt)
    next _ => exact sigmap_id ts
  next => exact sigmap_id ts

theorem sigmap_parts (db : DB) (ts' : List Txn) (hs : SigMap db.txns ts')
    (hWF : WF db) (hStatus : StatusInv db) (hNum : NumInv db) :
    ts'.Pairwise (fun a b => a.id < b.id) ∧
    (∀ t ∈ ts', t.id < db.nextTxnId) ∧
    (∀ t ∈ ts',
      t.payment_status = createStatus t.paid_amount t.total_amount ∨
      t.payment_status = recordStatus t.paid_amount t.total_amount) ∧
    (∀ t ∈ ts', ∃ n, 1 ≤ n ∧ t.number = formatNumber (tagOf t.ttype) n) ∧
    ts'.Pairwise (fun a b =>
      a.ttype = b.ttype → numberValue a.number < numberValue b.number) := by
  obtain ⟨F, hFeq, hFid, hFty, hFnum, hFdel, hFtot, hFst⟩ := hs
  subst hFeq
  refine ⟨pairwise_key_map _ F Txn.id hFid hWF.txnSorted, ?_, ?_, ?_,
    pairwise_num_map _ F hFty hFnum hNum.2⟩
  · intro t' ht'
    rcases List.mem_map.mp ht' with ⟨t, ht, rfl⟩
    rw [hFid]
    exact hWF.txnLt t ht
  · intro t' ht'
    rcases List.mem_map.mp ht' with ⟨t, ht, rfl⟩
    rcases hFst t with ⟨hst, hpa⟩ | hrec
    · rw [hst, hpa, hFtot]
      exact hStatus t ht
    · exact Or.inr hrec
  · intro t' ht'
    rcases List.mem_map.mp ht' with ⟨t, ht, rfl⟩
    rw [hFnum, hFty]
    exact hNum.1 t ht
theorem isLinked_true_of (tid : Nat) (p : Payment) (hdel : p.deleted = false)
    (htid : p.transaction_id = some tid) : isLinked tid p = true := by
  simp [isLinked, hdel, htid]

theorem isLinked_false_of (tid : Nat) (p : Payment)
    (htid : p.transaction_id ≠ some tid) : isLinked tid p = false := by
  simp only [isLinked, Bool.and_eq_false_iff]
  right
  simp only [decide_eq_false_iff_not]
  exact htid

theorem decOldTxns_paid (db : DB) (pid : Nat) (pay np : Payment)
    (hpmem : pay ∈ db.payments) (hpid : pay.id = pid) (hpdel : pay.deleted = false)
    (hW : WF db) (hPaid : PaidInv db) :
    ∀ t' ∈ decOldTxns db.txns pay np.transaction_id, t'.deleted = false →
      (some t'.id : Option Nat) ≠ np.transaction_id →
      t'.paid_amount = linkedPaidSum
        (db.payments.map (fun p => if p.id = pid then np else p)) t'.id := by
  have hsum : ∀ tid' : Nat,
      linkedPaidSum (db.payments.map (fun p => if p.id = pid then np else p)) tid'
        = linkedPaidSum db.payments tid'
          - (if isLinked tid' pay then pay.amount else 0)
          + (if isLinked tid' np then np.amount else 0) :=
    fun tid' => linkedPaidSum_replace db.payments pid np pay tid' hW.paySorted hpmem hpid
  suffices hgen : ∀ ts0, decOldTxns db.txns pay np.transaction_id = ts0 →
      ∀ t' ∈ ts0, t'.deleted = false →
      (some t'.id : Option Nat) ≠ np.transaction_id →
      t'.paid_amount = linkedPaidSum
        (db.payments.map (fun p => if p.id = pid then np else p)) t'.id by
    exact hgen _ rfl
  intro ts0 h0
  unfold decOldTxns at h0
  split at h0
  next ot heq =>
    split at h0
    next hne2 =>
      split at h0
      next t0 heq2 =>
        subst h0
        set f : Txn → Txn := fun t =>
          if t.id = ot then
            { t with paid_amount := t.paid_amount - pay.amount,
                     payment_status :=
                       recordStatus (t.paid_amount - pay.amount) t.total_amount }
          else t with hfdef
        have hfid : ∀ t, (f t).id = t.id := by
          intro t
          by_cases ht : t.id = ot <;> simp [hfdef, ht]
        have hfdel : ∀ t, (f t).deleted = t.deleted := by
          intro t
          by_cases ht : t.id = ot <;> simp [hfdef, ht]
        intro t' ht' hdel hne
        rcases List.mem_map.mp ht' with ⟨t, ht, rfl⟩
        rw [hfdel t] at hdel
        rw [hfid t] at hne
        have hnp : isLinked t.id np = false :=
          isLinked_false_of t.id np (fun he => hne he.symm)
        show (f t).paid_amount = linkedPaidSum _ (f t).id
        rw [hfid t, hsum t.id, hnp]
        by_cases hteq : t.id = ot
        · have hp : isLinked t.id pay = true :=
            isLinked_true_of t.id pay hpdel (by rw [heq, hteq])
          rw [hp]
          show (f t).paid_amount = linkedPaidSum db.payments t.id - pay.amount + 0
          rw [add_zero]
          simp only [hfdef, if_pos hteq]
          rw [hPaid t ht hdel]
        · have hp : isLinked t.id pay = false := by
            refine isLinked_false_of t.id pay ?_
            rw [heq]
            intro he
            exact hteq (Option.some.inj he).symm
          rw [hp]
          show (f t).paid_amount = linkedPaidSum db.payments t.id - 0 + 0
          rw [sub_zero, add_zero]
          simp only [hfdef, if_neg hteq]
          exact hPaid t ht hdel
      next heq2 =>
        subst h0
        intro t' ht' hdel hne
        have hot := findTxnAny_none db.txns ot heq2 t' ht'
        have hp : isLinked t'.id pay = false := by
          refine isLinked_false_of t'.id pay ?_
          rw [heq]
          intro he
          exact hot (Option.some.inj he).symm
        have hnp : isLinked t'.id np = false :=
          isLinked_false_of t'.id np (fun he => hne he.symm)
        rw [hsum t'.id, hp, hnp]
        show t'.paid_amount = linkedPaidSum db.payments t'.id - 0 + 0
        rw [sub_zero, add_zero]
        exact hPaid t' ht' hdel
    next hne2 =>
      subst h0
      intro t' ht' hdel hne
      have hpt : pay.transaction_id = np.transaction_id := not_not.mp hne2
      have hp : isLinked t'.id pay = false := by
        refine isLinked_false_of t'.id pay ?_
        rw [hpt]
        exact fun he => hne he.symm
      have hnp : isLinked t'.id np = false :=
        isLinked_false_of t'.id np (fun he => hne he.symm)
      rw [hsum t'.id, hp, hnp]
      show t'.paid_amount = linkedPaidSum db.payments t'.id - 0 + 0
      rw [sub_zero, add_zero]
      exact hPaid t' ht' hdel
  next heq =>
    subst h0
    intro t' ht' hdel hne
    have hp : isLinked t'.id pay = false := by
      refine isLinked_false_of t'.id pay ?_
      rw [heq]
      exact fun he => Option.noConfusion he
    have hnp : isLinked t'.id np = false :=
      isLinked_false_of t'.id np (fun he => hne he.symm)
    rw [hsum t'.id, hp, hnp]
    show t'.paid_amount = linkedPaidSum db.payments t'.id - 0 + 0
    rw [sub_zero, add_zero]
    exact hPaid t' ht' hdel

theorem inv_payments_update_shape (db : DB) (pid : Nat) (pay np : Payment)
    (hpmem : pay ∈ db.payments) (hpid : pay.id = pid) (hpdel : pay.deleted = false)
    (hnpid : np.id = pay.id) (hnpdel : np.deleted = false)
    (hnptid : ∀ nt ∈ np.transaction_id, nt < db.nextTxnId)
    (hI : Inv db) :
    Inv { db with
            payments := db.payments.map (fun p => if p.id = pid then np else p),
            txns := rederiveTxns (decOldTxns db.txns pay np.transaction_id)
              (db.payments.map (fun p => if p.id = pid then np else p))
              np.transaction_id } := by
  obtain ⟨hWF, hPaid, hStatus, hNum⟩ := hI
  have hsig := sigmap_trans db.txns _ _
    (sigmap_dec db.txns pay np.transaction_id)
    (sigmap_rederive (decOldTxns db.txns pay np.transaction_id)
      (db.payments.map (fun p => if p.id = pid then np else p)) np.transaction_id)
  obtain ⟨hsort, hlt, hstat, hnumall, hnumpw⟩ :=
    sigmap_parts db _ hsig hWF hStatus hNum
  have hcore := decOldTxns_paid db pid pay np hpmem hpid hpdel hWF hPaid
  have hgid : ∀ p : Payment, ((fun p => if p.id = pid then np else p) p).id = p.id := by
    intro p
    by_cases hpe : p.id = pid
    · show (if p.id = pid then np else p).id = p.id
      rw [if_pos hpe, hnpid, hpid, hpe]
    · show (if p.id = pid then np else p).id = p.id
      rw [if_neg hpe]
  have hPaidFinal : ∀ ts2, rederiveTxns (decOldTxns db.txns pay np.transaction_id)
        (db.payments.map (fun p => if p.id = pid then np else p)) np.transaction_id = ts2 →
      ∀ t' ∈ ts2, t'.deleted = false →
      t'.paid_amount = linkedPaidSum
        (db.payments.map (fun p => if p.id = pid then np else p)) t'.id := by
    intro ts2 h2
    unfold rederiveTxns at h2
    split at h2
    next nt heq =>
      split at h2
      next t1 heqT =>
        subst h2
        intro t'' ht'' hdel
        rcases List.mem_map.mp ht'' with ⟨t', ht', rfl⟩
        by_cases hteq : t'.id = nt
        · simp only [if_pos hteq]
          show linkedPaidSum _ nt = linkedPaidSum _ t'.id
          rw [hteq]
        · simp only [if_neg hteq] at hdel ⊢
          have hne : (some t'.id : Option Nat) ≠ np.transaction_id := by
            rw [heq]
            intro he
            exact hteq (Option.some.inj he)
          exact hcore t' ht' hdel hne
      next heqT =>
        subst h2
        intro t'' ht'' hdel
        have hnt := findTxnAny_none _ nt heqT t'' ht''
        have hne : (some t''.id : Option Nat) ≠ np.transaction_id := by
          rw [heq]
          intro he
          exact hnt (Option.some.inj he)
        exact hcore t'' ht'' hdel hne
    next heq =>
      subst h2
      intro t'' ht'' hdel
      have hne : (some t''.id : Option Nat) ≠ np.transaction_id := by
        rw [heq]
        exact fun he => Option.noConfusion he
      exact hcore t'' ht'' hdel hne
  refine ⟨⟨hsort, hlt, ?_, ?_, hWF.itemLt, ?_⟩, ?_, hstat, hnumall, hnumpw⟩
  · exact pairwise_key_map _ _ Payment.id hgid hWF.paySorted
  · intro p' hp'
    rcases List.mem_map.mp hp' with ⟨p, hp, rfl⟩
    rw [hgid]
    exact hWF.payLt p hp
  · intro p' hp' ptid hptid
    rcases List.mem_map.mp hp' with ⟨p, hp, rfl⟩
    by_cases hpe : p.id = pid
    · simp only [if_pos hpe] at hptid
      exact hnptid ptid hptid
    · simp only [if_neg hpe] at hptid
      exact hWF.payTidLt p hp ptid hptid
  · intro t'' ht'' hdel
    exact hPaidFinal _ rfl t'' ht'' hdel

theorem inv_payments_update_commit (db : DB) (pid : Nat) (dto : UpdateManualPaymentDto)
    (pay : Payment)
    (hfp : findPayment db.payments pid = some pay)
    (hval : ∀ nt : Nat, dto.transaction_id = some (some nt) → nt < db.nextTxnId)
    (hI : Inv db) : Inv (payments_update_commit db pid dto pay) := by
  obtain ⟨hpmem, hpid, hpdel⟩ := findPayment_some db.payments pid pay hfp
  have hnptid : ∀ nt ∈ (updatedPayment pay dto).transaction_id, nt < db.nextTxnId := by
    intro nt hnt
    cases hdt : dto.transaction_id with
    | none =>
      have he : (updatedPayment pay dto).transaction_id = pay.transaction_id := by
        simp [updatedPayment, hdt]
      rw [he] at hnt
      exact hI.1.payTidLt pay hpmem nt hnt
    | some o =>
      have he : (updatedPayment pay dto).transaction_id = o := by
        simp [updatedPayment, hdt]
      rw [he] at hnt
      cases o with
      | none => cases hnt
      | some nt2 =>
        rw [Option.mem_def] at hnt
        cases Option.some.inj hnt
        exact hval _ hdt
  exact inv_payments_update_shape db pid pay (updatedPayment pay dto)
    hpmem hpid hpdel rfl hpdel hnptid ⟨hI.1, hI.2.1, hI.2.2.1, hI.2.2.2⟩

theorem inv_payments_update_stage3 (db : DB) (pid : Nat) (dto : UpdateManualPaymentDto)
    (db' : DB)
    (hval : ∀ nt : Nat, dto.transaction_id = some (some nt) → nt < db.nextTxnId)
    (hI : Inv db) (h : payments_update_stage3 db pid dto = .ok db') : Inv db' := by
  unfold payments_update_stage3 at h
  cases hfp : findPayment db.payments pid with
  | none => rw [hfp] at h; cases h
  | some pay =>
    rw [hfp] at h
    cases h
    exact inv_payments_update_commit db pid dto pay hfp hval hI

theorem inv_payments_update_stage2 (db : DB) (pid : Nat) (dto : UpdateManualPaymentDto)
    (db' : DB)
    (hI : Inv db) (h : payments_update_stage2 db pid dto = .ok db') : Inv db' := by
  unfold payments_update_stage2 at h
  cases hdt : dto.transaction_id with
  | none =>
    rw [hdt] at h
    have h2 : payments_update_stage3 db pid dto = .ok db' := h
    refine inv_payments_update_stage3 db pid dto db' ?_ hI h2
    intro nt hnt
    rw [hdt] at hnt
    exact Option.noConfusion hnt
  | some o =>
    cases o with
    | none =>
      rw [hdt] at h
      have h2 : payments_update_stage3 db pid dto = .ok db' := h
      refine inv_payments_update_stage3 db pid dto db' ?_ hI h2
      intro nt hnt
      rw [hdt] at hnt
      exact Option.noConfusion (Option.some.inj hnt)
    | some tid =>
      rw [hdt] at h
      have h2 : (match findTxn db.txns tid with
        | none => (.error .notFound : Except Err DB)
        | some _ => payments_update_stage3 db pid dto) = .ok db' := h
      cases hft : findTxn db.txns tid with
      | none => rw [hft] at h2; cases h2
      | some t =>
        rw [hft] at h2
        have h3 : payments_update_stage3 db pid dto = .ok db' := h2
        refine inv_payments_update_stage3 db pid dto db' ?_ hI h3
        intro nt hnt
        rw [hdt] at hnt
        cases Option.some.inj (Option.some.inj hnt)
        obtain ⟨htmem, htid, _⟩ := findTxn_some db.txns tid t hft
        rw [← htid]
        exact hI.1.txnLt t htmem

theorem inv_payments_update (db : DB) (pid : Nat) (dto : UpdateManualPaymentDto)
    (db' : DB)
    (hI : Inv db) (h : payments_update db pid dto = .ok db') : Inv db' := by
  unfold payments_update at h
  by_cases hempty :
      (dto.amount.isNone && dto.transaction_id.isNone && dto.contact_id.isNone) = true
  · rw [if_pos hempty] at h
    cases hfp : findPayment db.payments pid with
    | none => rw [hfp] at h; cases h
    | some pay =>
      rw [hfp] at h
      cases h
      exact hI
  · rw [if_neg hempty] at h
    cases hdc : dto.contact_id with
    | none =>
      rw [hdc] at h
      have h2 : payments_update_stage2 db pid dto = .ok db' := h
      exact inv_payments_update_stage2 db pid dto db' hI h2
    | some o =>
      cases o with
      | none =>
        rw [hdc] at h
        have h2 : payments_update_stage2 db pid dto = .ok db' := h
        exact inv_payments_update_stage2 db pid dto db' hI h2
      | some cid =>
        rw [hdc] at h
        have h2 : (match findContact db.contacts cid with
          | none => (.error .notFound : Except Err DB)
          | some _ => payments_update_stage2 db pid dto) = .ok db' := h
        cases hfc : findContact db.contacts cid with
        | none => rw [hfc] at h2; cases h2
        | some c =>
          rw [hfc] at h2
          have h3 : payments_update_stage2 db pid dto = .ok db' := h2
          exact inv_payments_update_stage2 db pid dto db' hI h3

theorem inv_set_products (db : DB) (payload : CreateContainerProductDto) (db' : DB)
    (hI : Inv db) (h : set_products_in_container db payload = .ok db') : Inv db' := by
  unfold set_products_in_container at h
  cases hs : setLoop payload.containerId db.positions payload.items db.positions [] with
  | error e => rw [hs] at h; cases h
  | ok pr =>
    rw [hs] at h
    obtain ⟨ps2, newLogs⟩ := pr
    have h2 : (if posKeysNodup ps2 then
        Except.ok { db with positions := ps2, logs := db.logs ++ newLogs }
      else (.error .conflict : Except Err DB)) = .ok db' := h
    by_cases hnd : posKeysNodup ps2 = true
    · rw [if_pos hnd] at h2
      cases h2
      exact ⟨⟨hI.1.txnSorted, hI.1.txnLt, hI.1.paySorted, hI.1.payLt,
        hI.1.itemLt, hI.1.payTidLt⟩, hI.2.1, hI.2.2.1, hI.2.2.2⟩
    · rw [if_neg hnd] at h2
      cases h2

theorem inv_step (db : DB) (op : Op) (hV : op.Valid) (hI : Inv db) : Inv (step db op) := by
  cases op with
  | createSale dto =>
    simp only [step]
    cases h : create_sale db dto with
    | error e => exact hI
    | ok pr =>
      obtain ⟨db', tid⟩ := pr
      exact inv_create_sale db dto db' tid hI hV h
  | createPurchase dto =>
    simp only [step]
    cases h : create_purchase db dto with
    | error e => exact hI
    | ok pr =>
      obtain ⟨db', tid⟩ := pr
      exact inv_create_purchase db dto db' tid hI hV h
  | recordPayment tid dto =>
    simp only [step]
    cases h : record_payment db tid dto with
    | error e => exact hI
    | ok db' =>
      exact inv_record_payment db tid dto db' hI h
  | deleteTransaction tid =>
    simp only [step]
    cases h : delete_transaction db tid with
    | error e => exact hI
    | ok db' =>
      exact inv_delete_transaction db tid db' hI h
  | paymentsCreate dto =>
    simp only [step]
    cases h : payments_create db dto with
    | error e => exact hI
    | ok db' =>
      exact inv_payments_create db dto db' hI h
  | paymentsUpdate pid dto =>
    simp only [step]
    cases h : payments_update db pid dto with
    | error e => exact hI
    | ok db' =>
      exact inv_payments_update db pid dto db' hI h
  | paymentsRemove pid =>
    simp only [step]
    cases h : payments_remove db pid with
    | error e => exact hI
    | ok db' =>
      exact inv_payments_remove db pid db' hI h
  | setProducts payload =>
    simp only [step]
    cases h : set_products_in_container db payload with
    | error e => exact hI
    | ok db' =>
      exact inv_set_products db payload db' hI h

theorem inv_run (db : DB) (ops : List Op) (hV : ∀ op ∈ ops, op.Valid) (hI : Inv db) :
    Inv (run db ops) := by
  induction ops generalizing db with
  | nil => exact hI
  | cons op rest ih =>
    show Inv (run (step db op) rest)
    exact ih (step db op) (fun o ho => hV o (List.mem_cons_of_mem op ho))
      (inv_step db op (hV op (List.mem_cons_self op rest)) hI)

theorem inv_seed (contacts : List Contact) (products : List Product) :
    Inv (seedDB contacts products) := by
  refine ⟨⟨List.Pairwise.nil, ?_, List.Pairwise.nil, ?_, ?_, ?_⟩,
    ?_, ?_, ?_, List.Pairwise.nil⟩ <;> intro x hx <;> cases hx
theorem delete_transaction_eq (db : DB) (tid : Nat) (txn : Txn)
    (h : findTxn db.txns tid = some txn) :
    delete_transaction db tid = .ok (deleteCommit db tid txn) := by
  unfold delete_transaction
  rw [h]
  rfl

theorem roundtrip_balance_sale (cs : List Contact) (cid : Nat) (a : Money) :
    (if 0 < a then
       update_balance (if 0 < a then update_balance cs cid a else cs) cid (-a)
     else (if 0 < a then update_balance cs cid a else cs)) = cs := by
  by_cases hpos : 0 < a
  · rw [if_pos hpos, if_pos hpos, update_balance_cancel]
  · rw [if_neg hpos, if_neg hpos]

theorem roundtrip_balance_purchase (cs : List Contact) (cid : Nat) (a : Money)
    (ha : 0 ≤ a) :
    (if 0 < a then
       update_balance (if -a ≠ 0 then update_balance cs cid (-a) else cs) cid a
     else (if -a ≠ 0 then update_balance cs cid (-a) else cs)) = cs := by
  by_cases hpos : 0 < a
  · have hne : -a ≠ 0 := neg_ne_zero.mpr (ne_of_gt hpos)
    rw [if_pos hpos, if_pos hne]
    have h2 := update_balance_cancel cs cid (-a)
    rw [neg_neg] at h2
    exact h2
  · have ha0 : a = 0 := le_antisymm (not_lt.mp hpos) ha
    subst ha0
    rw [if_neg hpos, if_neg (by simp)]

theorem filter_new_items (db : DB) (dto : CreateTransactionDto) (hWF : WF db) :
    (db.txnItems ++ dto.items.map (mkTxnItem db.nextTxnId)).filter
        (fun it => it.transaction_id = db.nextTxnId)
      = dto.items.map (mkTxnItem db.nextTxnId) := by
  rw [List.filter_append]
  have h1 : db.txnItems.filter (fun it => it.transaction_id = db.nextTxnId) = [] := by
    rw [List.filter_eq_nil_iff]
    intro it hit
    have hlt := hWF.itemLt it hit
    simp [Nat.ne_of_lt hlt]
  have h2 : (dto.items.map (mkTxnItem db.nextTxnId)).filter
        (fun it => it.transaction_id = db.nextTxnId)
      = dto.items.map (mkTxnItem db.nextTxnId) := by
    rw [List.filter_eq_self]
    intro a ha
    rcases List.mem_map.mp ha with ⟨u, hu, rfl⟩
    simp [mkTxnItem]
  rw [h1, h2, List.nil_append]

theorem delete_createCommit_sale (db : DB) (dto : CreateTransactionDto)
    (cts' : List Contact) (hWF : WF db)
    (hcont : ∀ it ∈ dto.items, it.container_id.isSome = true)
    (hpos : ∀ it ∈ dto.items, hasPos db.positions (itemKey it) = true)
    (hbal : (if 0 < saleSubtotal dto.items + dto.tax_amount - dto.discount_amount
          - dto.paid_amount then
        update_balance cts' dto.contact_id
          (-(saleSubtotal dto.items + dto.tax_amount - dto.discount_amount
            - dto.paid_amount))
      else cts') = db.contacts) :
    ∃ db2,
      delete_transaction
        (createCommit db .sale dto (saleLoop db.nextTxnId dto.items db.positions) cts')
        db.nextTxnId = .ok db2 ∧
      db2.contacts = db.contacts ∧
      ∀ k, qtyOf db2.positions k = qtyOf db.positions k := by
  have hftx : findTxn
      ((createCommit db .sale dto (saleLoop db.nextTxnId dto.items db.positions)
        cts').txns) db.nextTxnId
      = some ⟨db.nextTxnId, generate_transaction_number db .sale, .sale, dto.contact_id,
          saleSubtotal dto.items, dto.tax_amount, dto.discount_amount,
          saleSubtotal dto.items + dto.tax_amount - dto.discount_amount,
          dto.paid_amount,
          createStatus dto.paid_amount
            (saleSubtotal dto.items + dto.tax_amount - dto.discount_amount),
          false⟩ := by
    show findTxn (db.txns ++
        [⟨db.nextTxnId, generate_transaction_number db .sale, .sale, dto.contact_id,
          saleSubtotal dto.items, dto.tax_amount, dto.discount_amount,
          saleSubtotal dto.items + dto.tax_amount - dto.discount_amount,
          dto.paid_amount,
          createStatus dto.paid_amount
            (saleSubtotal dto.items + dto.tax_amount - dto.discount_amount),
          false⟩]) db.nextTxnId = _
    have hnone : ∀ t ∈ db.txns,
        (decide (t.id = db.nextTxnId) && !t.deleted) = false := by
      intro t ht
      have hlt := hWF.txnLt t ht
      simp [Nat.ne_of_lt hlt]
    unfold findTxn
    rw [find?_append_of_none _ _ _ hnone, List.find?_cons_of_pos _ (by simp)]
  refine ⟨_, delete_transaction_eq _ _ _ hftx, ?_, ?_⟩
  · exact hbal
  · intro k
    show qtyOf (reverseLoop TransactionType.sale
        ((db.txnItems ++ (saleLoop db.nextTxnId dto.items db.positions).1).filter
          (fun it => it.transaction_id = db.nextTxnId))
        (saleLoop db.nextTxnId dto.items db.positions).2.1) k = qtyOf db.positions k
    rw [saleLoop_items, filter_new_items db dto hWF]
    rw [reverseLoop_qty TransactionType.sale db.nextTxnId dto.items
      ((saleLoop db.nextTxnId dto.items db.positions).2.1) k hcont
      (fun it hit => by rw [saleLoop_hasPos]; exact hpos it hit)]
    rw [saleLoop_qty db.nextTxnId dto.items db.positions k hpos]
    show qtyOf db.positions k - dtoQtyAt dto.items k + dtoQtyAt dto.items k
      = qtyOf db.positions k
    rw [sub_add_cancel]

theorem delete_createCommit_purchase (db : DB) (dto : CreateTransactionDto)
    (cts' : List Contact) (hWF : WF db)
    (hcont : ∀ it ∈ dto.items, it.container_id.isSome = true)
    (hle : 0 ≤ saleSubtotal dto.items + dto.tax_amount - dto.discount_amount
      - dto.paid_amount)
    (hbal : (if 0 < saleSubtotal dto.items + dto.tax_amount - dto.discount_amount
          - dto.paid_amount then
        update_balance cts' dto.contact_id
          (saleSubtotal dto.items + dto.tax_amount - dto.discount_amount
            - dto.paid_amount)
      else cts') = db.contacts) :
    ∃ db2,
      delete_transaction
        (createCommit db .purchase dto (purchaseLoop db.nextTxnId dto.items db.positions)
          cts')
        db.nextTxnId = .ok db2 ∧
      db2.contacts = db.contacts ∧
      ∀ k, qtyOf db2.positions k = qtyOf db.positions k := by
  have hftx : findTxn
      ((createCommit db .purchase dto (purchaseLoop db.nextTxnId dto.items db.positions)
        cts').txns) db.nextTxnId
      = some ⟨db.nextTxnId, generate_transaction_number db .purchase, .purchase,
          dto.contact_id,
          saleSubtotal dto.items, dto.tax_amount, dto.discount_amount,
          saleSubtotal dto.items + dto.tax_amount - dto.discount_amount,
          dto.paid_amount,
          createStatus dto.paid_amount
            (saleSubtotal dto.items + dto.tax_amount - dto.discount_amount),
          false⟩ := by
    show findTxn (db.txns ++
        [⟨db.nextTxnId, generate_transaction_number db .purchase, .purchase,
          dto.contact_id,
          saleSubtotal dto.items, dto.tax_amount, dto.discount_amount,
          saleSubtotal dto.items + dto.tax_amount - dto.discount_amount,
          dto.paid_amount,
          createStatus dto.paid_amount
            (saleSubtotal dto.items + dto.tax_amount - dto.discount_amount),
          false⟩]) db.nextTxnId = _
    have hnone : ∀ t ∈ db.txns,
        (decide (t.id = db.nextTxnId) && !t.deleted) = false := by
      intro t ht
      have hlt := hWF.txnLt t ht
      simp [Nat.ne_of_lt hlt]
    unfold findTxn
    rw [find?_append_of_none _ _ _ hnone, List.find?_cons_of_pos _ (by simp)]
  refine ⟨_, delete_transaction_eq _ _ _ hftx, ?_, ?_⟩
  · exact hbal
  · intro k
    show qtyOf (reverseLoop TransactionType.purchase
        ((db.txnItems ++ (purchaseLoop db.nextTxnId dto.items db.positions).1).filter
          (fun it => it.transaction_id = db.nextTxnId))
        (purchaseLoop db.nextTxnId dto.items db.positions).2.1) k = qtyOf db.positions k
    rw [purchaseLoop_items, filter_new_items db dto hWF]
    rw [reverseLoop_qty TransactionType.purchase db.nextTxnId dto.items
      ((purchaseLoop db.nextTxnId dto.items db.positions).2.1) k hcont
      (fun it hit => by
        rw [purchaseLoop_hasPos]
        have hany : dto.items.any (fun u => itemKey u = itemKey it) = true :=
          List.any_eq_true.mpr ⟨it, hit, by simp⟩
        rw [hany, Bool.or_true])]
    rw [purchaseLoop_qty db.nextTxnId dto.items db.positions k]
    show qtyOf db.positions k + dtoQtyAt dto.items k + -(dtoQtyAt dto.items k)
      = qtyOf db.positions k
    rw [add_neg_cancel_right]


/-- C2: immediately after a successful create_sale or create_purchase, the
created transaction can be deleted, and the deletion succeeds and restores
every stock-position quantity and every contact balance (hence the
counterparty balance) to its pre-creation value. -/
theorem c2_delete_roundtrip (db : DB) (dto : CreateTransactionDto) (db1 : DB) (tid : Nat)
    (hWF : WF db)
    (h : create_sale db dto = .ok (db1, tid) ∨ create_purchase db dto = .ok (db1, tid)) :
    ∃ db2, delete_transaction db1 tid = .ok db2 ∧
      db2.contacts = db.contacts ∧
      ∀ k, qtyOf db2.positions k = qtyOf db.positions k := by
  rcases h with h | h
  · unfold create_sale at h
    cases hc : findContact db.contacts dto.contact_id with
    | none => rw [hc] at h; cases h
    | some contact =>
      rw [hc] at h
      generalize hg : (if 0 < saleSubtotal dto.items + dto.tax_amount
            - dto.discount_amount - dto.paid_amount then
          update_balance db.contacts dto.contact_id
            (saleSubtotal dto.items + dto.tax_amount - dto.discount_amount
              - dto.paid_amount)
        else db.contacts) = cts' at h
      repeat' split at h
      all_goals try cases h
      rename_i hg1 hg2 hg3 hg4 hg5 hg6 hg7
      have hcont : ∀ it ∈ dto.items, it.container_id.isSome = true := by
        have hb : dto.items.all (fun it => it.container_id.getD 0 ≠ 0) = true := by
          revert hg3
          cases dto.items.all (fun it => it.container_id.getD 0 ≠ 0) <;> simp
        intro it hit
        have hgd := of_decide_eq_true (List.all_eq_true.mp hb it hit)
        cases hco : it.container_id with
        | none => rw [hco] at hgd; simp at hgd
        | some c => rfl
      have hpos : ∀ it ∈ dto.items, hasPos db.positions (itemKey it) = true := by
        have hb : dto.items.all (fun it => hasPos db.positions (itemKey it)) = true := by
          revert hg4
          cases dto.items.all (fun it => hasPos db.positions (itemKey it)) <;> simp
        exact fun it hit => List.all_eq_true.mp hb it hit
      have hbal := roundtrip_balance_sale db.contacts dto.contact_id
        (saleSubtotal dto.items + dto.tax_amount - dto.discount_amount - dto.paid_amount)
      rw [hg] at hbal
      exact delete_createCommit_sale db dto cts' hWF hcont hpos hbal
  · unfold create_purchase at h
    cases hc : findContact db.contacts dto.contact_id with
    | none => rw [hc] at h; cases h
    | some contact =>
      rw [hc] at h
      generalize hg : (if -(saleSubtotal dto.items + dto.tax_amount
            - dto.discount_amount - dto.paid_amount) ≠ 0 then
          update_balance db.contacts dto.contact_id
            (-(saleSubtotal dto.items + dto.tax_amount - dto.discount_amount
              - dto.paid_amount))
        else db.contacts) = cts' at h
      repeat' split at h
      all_goals try cases h
      rename_i hg1 hg2 hg3 hg4 hg5
      have hcont : ∀ it ∈ dto.items, it.container_id.isSome = true := by
        have hb : dto.items.all (fun it => it.container_id.getD 0 ≠ 0) = true := by
          revert hg3
          cases dto.items.all (fun it => it.container_id.getD 0 ≠ 0) <;> simp
        intro it hit
        have hgd := of_decide_eq_true (List.all_eq_true.mp hb it hit)
        cases hco : it.container_id with
        | none => rw [hco] at hgd; simp at hgd
        | some c => rfl
      have hbal := roundtrip_balance_purchase db.contacts dto.contact_id
        (saleSubtotal dto.items + dto.tax_amount - dto.discount_amount - dto.paid_amount)
        (sub_nonneg.mpr (not_lt.mp hg4))
      rw [hg] at hbal
      exact delete_createCommit_purchase db dto cts' hWF hcont
        (sub_nonneg.mpr (not_lt.mp hg4)) hbal


theorem paypos_createCommit (db : DB) (ty : TransactionType) (dto : CreateTransactionDto)
    (L : List TxnItem × List ContainerProduct × List InventoryLog) (cts' : List Contact)
    (hP : PayPos db) : PayPos (createCommit db ty dto L cts') := by
  intro p hp
  have hp2 : p ∈ (if 0 < dto.paid_amount then
      db.payments ++ [⟨db.nextPaymentId, some db.nextTxnId, none, dto.paid_amount, false⟩]
    else db.payments) := hp
  by_cases hpa : 0 < dto.paid_amount
  · rw [if_pos hpa] at hp2
    rcases List.mem_append.mp hp2 with h' | h'
    · exact hP p h'
    · rcases List.mem_singleton.mp h' with rfl
      exact hpa
  · rw [if_neg hpa] at hp2
    exact hP p hp2

theorem paypos_create_sale (db : DB) (dto : CreateTransactionDto) (db' : DB) (tid : Nat)
    (hP : PayPos db) (h : create_sale db dto = .ok (db', tid)) : PayPos db' := by
  unfold create_sale at h
  cases hc : findContact db.contacts dto.contact_id with
  | none => rw [hc] at h; cases h
  | some contact =>
    rw [hc] at h
    repeat' split at h
    all_goals try cases h
    all_goals exact paypos_createCommit db .sale dto _ _ hP

theorem paypos_create_purchase (db : DB) (dto : CreateTransactionDto) (db' : DB) (tid : Nat)
    (hP : PayPos db) (h : create_purchase db dto = .ok (db', tid)) : PayPos db' := by
  unfold create_purchase at h
  cases hc : findContact db.contacts dto.contact_id with
  | none => rw [hc] at h; cases h
  | some contact =>
    rw [hc] at h
    repeat' split at h
    all_goals try cases h
    all_goals exact paypos_createCommit db .purchase dto _ _ hP

theorem paypos_record_payment (db : DB) (tid : Nat) (dto : CreatePaymentDto) (db' : DB)
    (hP : PayPos db) (h : record_payment db tid dto = .ok db') : PayPos db' := by
  unfold record_payment at h
  cases hf : findTxn db.txns tid with
  | none => rw [hf] at h; cases h
  | some txn =>
    rw [hf] at h
    repeat' split at h
    all_goals try cases h
    all_goals
      rename_i h0 h1 h2 h3
      intro p hp
      have hp2 : p ∈ db.payments ++
        [⟨db.nextPaymentId, some tid, none, dto.amount, false⟩] := hp
      rcases List.mem_append.mp hp2 with h' | h'
      · exact hP p h'
      · rcases List.mem_singleton.mp h' with rfl
        exact lt_of_not_le h1

theorem paypos_delete_transaction (db : DB) (tid : Nat) (db' : DB)
    (hP : PayPos db) (h : delete_transaction db tid = .ok db') : PayPos db' := by
  unfold delete_transaction at h
  cases hf : findTxn db.txns tid with
  | none => rw [hf] at h; cases h
  | some txn =>
    rw [hf] at h
    cases h
    intro p hp
    have hp2 : p ∈ db.payments.map (fun q =>
        if q.transaction_id = some tid then { q with deleted := true } else q) := hp
    rcases List.mem_map.mp hp2 with ⟨q, hq, rfl⟩
    by_cases hqe : q.transaction_id = some tid
    · simp only [if_pos hqe]
      exact hP q hq
    · simp only [if_neg hqe]
      exact hP q hq

theorem payments_create_ok_shape (db : DB) (dto : CreateManualPaymentDto) (db' : DB)
    (h : payments_create db dto = .ok db') : db' = payments_create_commit db dto := by
  unfold payments_create payments_create_stage2 at h
  repeat' split at h
  all_goals try cases h
  all_goals rfl

theorem paypos_payments_create (db : DB) (dto : CreateManualPaymentDto) (db' : DB)
    (hV : 0 < dto.amount) (hP : PayPos db)
    (h : payments_create db dto = .ok db') : PayPos db' := by
  rw [payments_create_ok_shape db dto db' h]
  intro p hp
  have hp2 : p ∈ db.payments ++
      [⟨db.nextPaymentId, dto.transaction_id, dto.contact_id, dto.amount, false⟩] := hp
  rcases List.mem_append.mp hp2 with h' | h'
  · exact hP p h'
  · rcases List.mem_singleton.mp h' with rfl
    exact hV

theorem payments_update_ok_shape (db : DB) (pid : Nat) (dto : UpdateManualPaymentDto)
    (db' : DB) (h : payments_update db pid dto = .ok db') :
    db' = db ∨ ∃ pay, findPayment db.payments pid = some pay ∧
      db' = payments_update_commit db pid dto pay := by
  unfold payments_update payments_update_stage2 payments_update_stage3 at h
  repeat' split at h
  all_goals try cases h
  all_goals first
    | exact Or.inl rfl
    | (rename_i pay heq; exact Or.inr ⟨pay, heq, rfl⟩)

theorem paypos_payments_update (db : DB) (pid : Nat) (dto : UpdateManualPaymentDto)
    (db' : DB) (hV : ∀ a ∈ dto.amount, 0 < a) (hP : PayPos db)
    (h : payments_update db pid dto = .ok db') : PayPos db' := by
  rcases payments_update_ok_shape db pid dto db' h with rfl | ⟨pay, hfp, rfl⟩
  · exact hP
  · intro p hp
    have hp2 : p ∈ db.payments.map (fun q =>
        if q.id = pid then updatedPayment pay dto else q) := hp
    rcases List.mem_map.mp hp2 with ⟨q, hq, rfl⟩
    by_cases hqe : q.id = pid
    · simp only [if_pos hqe]
      cases hda : dto.amount with
      | none =>
        have he : (updatedPayment pay dto).amount = pay.amount := by
          simp [updatedPayment, hda]
        rw [he]
        exact hP pay (findPayment_some db.payments pid pay hfp).1
      | some a =>
        have he : (updatedPayment pay dto).amount = a := by
          simp [updatedPayment, hda]
        rw [he]
        exact hV a (by rw [hda]; rfl)
    · simp only [if_neg hqe]
      exact hP q hq

theorem paypos_payments_remove (db : DB) (pid : Nat) (db' : DB)
    (hP : PayPos db) (h : payments_remove db pid = .ok db') : PayPos db' := by
  unfold payments_remove at h
  cases hfp : findPayment db.payments pid with
  | none => rw [hfp] at h; cases h
  | some pay =>
    rw [hfp] at h
    cases h
    intro p hp
    have hp2 : p ∈ db.payments.map (fun q =>
        if q.id = pid then { q with deleted := true } else q) := hp
    rcases List.mem_map.mp hp2 with ⟨q, hq, rfl⟩
    by_cases hqe : q.id = pid
    · simp only [if_pos hqe]
      exact hP q hq
    · simp only [if_neg hqe]
      exact hP q hq

theorem paypos_set_products (db : DB) (payload : CreateContainerProductDto) (db' : DB)
    (hP : PayPos db) (h : set_products_in_container db payload = .ok db') : PayPos db' := by
  unfold set_products_in_container at h
  cases hs : setLoop payload.containerId db.positions payload.items db.positions [] with
  | error e => rw [hs] at h; cases h
  | ok pr =>
    rw [hs] at h
    obtain ⟨ps2, lgs⟩ := pr
    have h2 : (if posKeysNodup ps2 then
        Except.ok { db with positions := ps2, logs := db.logs ++ lgs }
      else (.error .conflict : Except Err DB)) = .ok db' := h
    by_cases hnd : posKeysNodup ps2 = true
    · rw [if_pos hnd] at h2
      cases h2
      exact hP
    · rw [if_neg hnd] at h2
      cases h2

theorem paypos_step (db : DB) (op : Op) (hV : op.Valid) (hP : PayPos db) :
    PayPos (step db op) := by
  cases op with
  | createSale dto =>
    simp only [step]
    cases h : create_sale db dto with
    | error e => exact hP
    | ok pr =>
      obtain ⟨db', tid⟩ := pr
      exact paypos_create_sale db dto db' tid hP h
  | createPurchase dto =>
    simp only [step]
    cases h : create_purchase db dto with
    | error e => exact hP
    | ok pr =>
      obtain ⟨db', tid⟩ := pr
      exact paypos_create_purchase db dto db' tid hP h
  | recordPayment tid dto =>
    simp only [step]
    cases h : record_payment db tid dto with
    | error e => exact hP
    | ok db' => exact paypos_record_payment db tid dto db' hP h
  | deleteTransaction tid =>
    simp only [step]
    cases h : delete_transaction db tid with
    | error e => exact hP
    | ok db' => exact paypos_delete_transaction db tid db' hP h
  | paymentsCreate dto =>
    simp only [step]
    cases h : payments_create db dto with
    | error e => exact hP
    | ok db' => exact paypos_payments_create db dto db' hV hP h
  | paymentsUpdate pid dto =>
    simp only [step]
    cases h : payments_update db pid dto with
    | error e => exact hP
    | ok db' => exact paypos_payments_update db pid dto db' hV hP h
  | paymentsRemove pid =>
    simp only [step]
    cases h : payments_remove db pid with
    | error e => exact hP
    | ok db' => exact paypos_payments_remove db pid db' hP h
  | setProducts payload =>
    simp only [step]
    cases h : set_products_in_container db payload with
    | error e => exact hP
    | ok db' => exact paypos_set_products db payload db' hP h

theorem paypos_run (db : DB) (ops : List Op) (hV : ∀ op ∈ ops, op.Valid)
    (hP : PayPos db) : PayPos (run db ops) := by
  induction ops generalizing db with
  | nil => exact hP
  | cons op rest ih =>
    show PayPos (run (step db op) rest)
    exact ih (step db op) (fun o ho => hV o (List.mem_cons_of_mem op ho))
      (paypos_step db op (hV op (List.mem_cons_self op rest)) hP)

theorem paypos_seed (contacts : List Contact) (products : List Product) :
    PayPos (seedDB contacts products) := by
  intro p hp
  cases hp

theorem linkedPaidSum_nonneg (ps : List Payment) (tid : Nat)
    (hP : ∀ p ∈ ps, 0 < p.amount) : 0 ≤ linkedPaidSum ps tid := by
  unfold linkedPaidSum
  apply List.sum_nonneg
  intro a ha
  rcases List.mem_map.mp ha with ⟨p, hp, rfl⟩
  exact le_of_lt (hP p (List.mem_of_mem_filter hp))

end MyStock

namespace MyStock
/-- C1: the spec requires stock non-negativity at every commit boundary and a
ValidationError on a purchase reversal that would drive stock negative; the
code has no such check: after buying 5, selling 3 and deleting the purchase,
deletion succeeds and commits a live position with quantity -3. -/
theorem c1_negative_stock_committed :
    (∀ op ∈ [Op.createPurchase purchaseDtoW, Op.createSale saleDtoW,
        Op.deleteTransaction 1], op.Valid) ∧
    delete_transaction dbPurSaleW 1 =
      .ok (run dbW [Op.createPurchase purchaseDtoW, Op.createSale saleDtoW,
        Op.deleteTransaction 1]) ∧
    findPos (run dbW [Op.createPurchase purchaseDtoW, Op.createSale saleDtoW,
        Op.deleteTransaction 1]).positions (1, 1) =
      some { container_id := 1, product_id := 1, quantity := -3, deleted := false } := by
  refine ⟨by decide, by decide, by decide⟩

/-- C3 counterexample: deleting the witness purchase succeeds and mutates the
stock quantity (5 back to 0), yet the inventory-log list is exactly the one
from before the deletion — no reversal movement row is appended, so the
reversal mutation is not paired with a logged movement. -/
theorem c3_counterexample_unlogged_reversal :
    delete_transaction dbPurW 1 =
      .ok (run dbW [Op.createPurchase purchaseDtoW, Op.deleteTransaction 1]) ∧
    (run dbW [Op.createPurchase purchaseDtoW, Op.deleteTransaction 1]).logs
      = dbPurW.logs ∧
    qtyOf (run dbW [Op.createPurchase purchaseDtoW, Op.deleteTransaction 1]).positions
        (1, 1) ≠ qtyOf dbPurW.positions (1, 1) := by
  refine ⟨by decide, by decide, by decide⟩

/-- C6 counterexample: a sale that empties a position leaves a live zero row
(quantity 0, not soft-deleted), and a purchase into a soft-deleted position
adds stock without restoring it — quantity 10 on a row that stays deleted. -/
theorem c6_counterexample_zero_rows :
    (step dbPurW (Op.createSale saleAllW)).positions =
      [{ container_id := 1, product_id := 1, quantity := 0, deleted := false }] ∧
    (run dbW [Op.createPurchase purchaseDtoW, Op.setProducts setZeroW,
        Op.createPurchase purchaseDtoW]).positions =
      [{ container_id := 1, product_id := 1, quantity := 10, deleted := true }] := by
  refine ⟨by decide, by decide⟩

/-- C7 counterexample: a purchase of free items stores total_amount 0 and
paid_amount 0 with status `unpaid`; the claimed rule "paid iff
paid_amount ≥ total_amount" demands `paid` for that transaction, so
recomputing the claimed rule disagrees with the stored value. -/
theorem c7_counterexample_zero_total :
    ∃ t ∈ (step dbW (Op.createPurchase purchaseFreeW)).txns,
      t.paid_amount = 0 ∧ t.total_amount ≤ t.paid_amount ∧
      t.payment_status = .unpaid ∧ t.payment_status ≠ .paid := by
  decide

/-- C4 counterexample: soft-deleting a payment through the payments module
leaves every contact balance unchanged, although record_payment applies a
counterparty-balance adjustment for the same amount on the same ledger — the
claimed "same balance recomputation" is not re-run by remove. -/
theorem c4_counterexample_no_balance_rerun :
    payments_remove (run dbW [Op.createPurchase purchaseDtoW,
        Op.paymentsCreate mpayW]) 1 =
      .ok (run dbW [Op.createPurchase purchaseDtoW, Op.paymentsCreate mpayW,
        Op.paymentsRemove 1]) ∧
    (run dbW [Op.createPurchase purchaseDtoW, Op.paymentsCreate mpayW,
        Op.paymentsRemove 1]).contacts =
      (run dbW [Op.createPurchase purchaseDtoW, Op.paymentsCreate mpayW]).contacts ∧
    (step dbPurW (Op.recordPayment 1 cpayW)).contacts ≠ dbPurW.contacts := by
  refine ⟨by decide, by decide, by decide⟩


/-- C5: in every state reachable from a seed database by DTO-valid ledger
operations, every non-deleted transaction's paid_amount equals the sum of
the amounts of its non-deleted linked payments. -/
theorem c5_paid_consistency (cs : List Contact) (prs : List Product) (ops : List Op)
    (hV : ∀ op ∈ ops, op.Valid) :
    PaidInv (run (seedDB cs prs) ops) :=
  (inv_run (seedDB cs prs) ops hV (inv_seed cs prs)).2.1

theorem c5_paid_consistency_witness :
    (∀ op ∈ [Op.createPurchase purchaseDtoW, Op.recordPayment 1 cpayW,
        Op.paymentsCreate mpayW, Op.paymentsRemove 1], op.Valid) ∧
    PaidInv (run (seedDB [contactW] [productW])
      [Op.createPurchase purchaseDtoW, Op.recordPayment 1 cpayW,
        Op.paymentsCreate mpayW, Op.paymentsRemove 1]) :=
  ⟨by decide, c5_paid_consistency [contactW] [productW]
    [Op.createPurchase purchaseDtoW, Op.recordPayment 1 cpayW,
      Op.paymentsCreate mpayW, Op.paymentsRemove 1] (by decide)⟩

/-- C3 amended: delete_transaction never deletes, mutates or appends
inventory-log rows — a successful deletion leaves the log list exactly
unchanged (so history is preserved, but the reversal is not logged). -/
theorem c3_amended_delete_keeps_logs (db : DB) (tid : Nat) (db' : DB)
    (h : delete_transaction db tid = .ok db') : db'.logs = db.logs := by
  unfold delete_transaction at h
  cases hf : findTxn db.txns tid with
  | none => rw [hf] at h; cases h
  | some txn =>
    rw [hf] at h
    cases h
    rfl

theorem c3_amended_delete_keeps_logs_witness :
    (run dbW [Op.createPurchase purchaseDtoW, Op.deleteTransaction 1]).logs
      = dbPurW.logs :=
  c3_amended_delete_keeps_logs dbPurW 1
    (run dbW [Op.createPurchase purchaseDtoW, Op.deleteTransaction 1]) (by decide)

theorem c2_delete_roundtrip_witness :
    ∃ db2, delete_transaction dbPurW 1 = .ok db2 ∧
      db2.contacts = dbW.contacts ∧
      ∀ k, qtyOf db2.positions k = qtyOf dbW.positions k :=
  c2_delete_roundtrip dbW purchaseDtoW dbPurW 1
    (inv_seed [contactW] [productW]).1 (Or.inr (by decide))

/-- C9: in every reachable state, every transaction number is the formatted
tagged number of some value ≥ 1 (SALE-NNNN / PUR-NNNN), numbers strictly
increase with the creation order (id) within each type — the id-wise later
transaction of a type always carries the larger number, tolerating gaps from
deletions — and no two distinct transactions of the same type (deleted or
not) share a number. -/
theorem c9_numbering (cs : List Contact) (prs : List Product) (ops : List Op)
    (hV : ∀ op ∈ ops, op.Valid) :
    (∀ t ∈ (run (seedDB cs prs) ops).txns,
      ∃ n, 1 ≤ n ∧ t.number = formatNumber (tagOf t.ttype) n) ∧
    (∀ t ∈ (run (seedDB cs prs) ops).txns, ∀ u ∈ (run (seedDB cs prs) ops).txns,
      t.id < u.id → t.ttype = u.ttype →
        numberValue t.number < numberValue u.number) ∧
    (∀ t ∈ (run (seedDB cs prs) ops).txns, ∀ u ∈ (run (seedDB cs prs) ops).txns,
      t ≠ u → t.ttype = u.ttype → t.number ≠ u.number) := by
  obtain ⟨hWF, _, _, hNum⟩ := inv_run (seedDB cs prs) ops hV (inv_seed cs prs)
  have hpw := hWF.txnSorted.and hNum.2
  have h2 := pairwise_two _ _ hpw
  refine ⟨hNum.1, ?_, ?_⟩
  · intro t ht u hu hid hty
    rcases h2 t ht u hu with rfl | ⟨_, hn⟩ | ⟨hid', _⟩
    · exact absurd hid (lt_irrefl _)
    · exact hn hty
    · exact absurd (hid.trans hid') (lt_irrefl _)
  · intro t ht u hu hne hty
    rcases h2 t ht u hu with rfl | ⟨_, hn⟩ | ⟨_, hn⟩
    · exact absurd rfl hne
    · intro he
      rw [he] at hn
      exact absurd (hn hty) (lt_irrefl _)
    · intro he
      rw [he] at hn
      exact absurd (hn hty.symm) (lt_irrefl _)

theorem c9_numbering_witness :
    (∀ op ∈ [Op.createPurchase purchaseDtoW, Op.createPurchase purchaseDtoW,
        Op.createSale saleDtoW], op.Valid) ∧
    (∀ t ∈ (run (seedDB [contactW] [productW])
        [Op.createPurchase purchaseDtoW, Op.createPurchase purchaseDtoW,
          Op.createSale saleDtoW]).txns,
      ∃ n, 1 ≤ n ∧ t.number = formatNumber (tagOf t.ttype) n) :=
  ⟨by decide,
    (c9_numbering [contactW] [productW]
      [Op.createPurchase purchaseDtoW, Op.createPurchase purchaseDtoW,
        Op.createSale saleDtoW] (by decide)).1⟩


theorem record_payment_ok (db : DB) (tid : Nat) (dto : CreatePaymentDto) (txn : Txn)
    (hf : findTxn db.txns tid = some txn)
    (h1 : ¬ txn.total_amount - txn.paid_amount ≤ 0)
    (h2 : ¬ dto.amount ≤ 0)
    (h3 : ¬ txn.total_amount - txn.paid_amount < dto.amount) :
    record_payment db tid dto = .ok { db with
      payments := db.payments ++
        [⟨db.nextPaymentId, some tid, none, dto.amount, false⟩],
      txns := db.txns.map (fun t =>
        if t.id = tid then
          { t with paid_amount := txn.paid_amount + dto.amount,
                   payment_status :=
                     recordStatus (txn.paid_amount + dto.amount) t.total_amount }
        else t),
      contacts := update_balance db.contacts txn.contact_id
        (if txn.ttype = .sale then -dto.amount else dto.amount),
      nextPaymentId := db.nextPaymentId + 1 } := by
  unfold record_payment
  simp only [hf]
  rw [if_neg h1, if_neg h2, if_neg h3]

theorem record_payment_err (db : DB) (tid : Nat) (dto : CreatePaymentDto) (txn : Txn)
    (hf : findTxn db.txns tid = some txn)
    (h : txn.total_amount - txn.paid_amount ≤ 0 ∨ dto.amount ≤ 0 ∨
      txn.total_amount - txn.paid_amount < dto.amount) :
    record_payment db tid dto = .error .validation := by
  unfold record_payment
  simp only [hf]
  by_cases h1 : txn.total_amount - txn.paid_amount ≤ 0
  · rw [if_pos h1]
  · rw [if_neg h1]
    by_cases h2 : dto.amount ≤ 0
    · rw [if_pos h2]
    · rw [if_neg h2]
      rcases h with h' | h' | h'
      · exact absurd h' h1
      · exact absurd h' h2
      · rw [if_pos h']

/-- C8: on an existing non-deleted transaction, record_payment raises a
validation error exactly when the remaining balance is non-positive, the
amount is non-positive, or the amount exceeds the remaining balance; and on
any of those failures the operation rolls back, leaving the database (its
payments, transactions and contact balances) unchanged. -/
theorem c8_record_payment_guards (db : DB) (tid : Nat) (dto : CreatePaymentDto)
    (txn : Txn) (hf : findTxn db.txns tid = some txn) :
    (record_payment db tid dto = .error .validation ↔
      (txn.total_amount - txn.paid_amount ≤ 0 ∨ dto.amount ≤ 0 ∨
        txn.total_amount - txn.paid_amount < dto.amount)) ∧
    ((txn.total_amount - txn.paid_amount ≤ 0 ∨ dto.amount ≤ 0 ∨
        txn.total_amount - txn.paid_amount < dto.amount) →
      step db (.recordPayment tid dto) = db) := by
  constructor
  · constructor
    · intro h
      by_contra hno
      push_neg at hno
      rw [record_payment_ok db tid dto txn hf (not_le.mpr hno.1)
        (not_le.mpr hno.2.1) (not_lt.mpr hno.2.2)] at h
      cases h
    · exact record_payment_err db tid dto txn hf
  · intro hg
    show (match record_payment db tid dto with
      | .ok db' => db'
      | .error _ => db) = db
    rw [record_payment_err db tid dto txn hf hg]

theorem c8_record_payment_guards_witness :
    (record_payment dbPurW 1 cpay100W = .error .validation ↔
      (txnPurW.total_amount - txnPurW.paid_amount ≤ 0 ∨ cpay100W.amount ≤ 0 ∨
        txnPurW.total_amount - txnPurW.paid_amount < cpay100W.amount)) ∧
    ((txnPurW.total_amount - txnPurW.paid_amount ≤ 0 ∨ cpay100W.amount ≤ 0 ∨
        txnPurW.total_amount - txnPurW.paid_amount < cpay100W.amount) →
      step dbPurW (.recordPayment 1 cpay100W) = dbPurW) :=
  c8_record_payment_guards dbPurW 1 cpay100W txnPurW (by decide)

/-- C10: a payment created through the payments module with a transaction_id
referencing an existing non-deleted transaction (and a contact reference that
resolves, when given) always succeeds — the amount is never compared with the
remaining balance — storing the payment row and updating the linked
transaction's paid_amount and payment_status, while every contact balance is
left untouched; record_payment, by contrast, rejects the same amount when it
exceeds the remaining balance and does adjust the balance. -/
theorem c10_payments_create_frame (db : DB) (dto : CreateManualPaymentDto)
    (tid : Nat) (txn : Txn)
    (hdt : dto.transaction_id = some tid)
    (hf : findTxn db.txns tid = some txn)
    (hcok : ∀ cid ∈ dto.contact_id, (findContact db.contacts cid).isSome = true) :
    (payments_create db dto = .ok (payments_create_commit db dto) ∧
     (payments_create_commit db dto).contacts = db.contacts ∧
     (payments_create_commit db dto).txns = db.txns.map (fun t =>
        if t.id = tid then
          { t with paid_amount := t.paid_amount + dto.amount,
                   payment_status :=
                     recordStatus (t.paid_amount + dto.amount) t.total_amount }
        else t) ∧
     (payments_create_commit db dto).payments = db.payments ++
       [⟨db.nextPaymentId, some tid, dto.contact_id, dto.amount, false⟩]) ∧
    (∀ pdto : CreatePaymentDto, pdto.amount = dto.amount →
      txn.total_amount - txn.paid_amount < dto.amount →
        record_payment db tid pdto = .error .validation) := by
  have hstage : payments_create_stage2 db dto = .ok (payments_create_commit db dto) := by
    unfold payments_create_stage2
    cases hcid : dto.contact_id with
    | none => rfl
    | some cid =>
      have hiso := hcok cid (by rw [hcid]; rfl)
      rcases Option.isSome_iff_exists.mp hiso with ⟨c, hfc⟩
      simp only [hfc]
  refine ⟨⟨?_, rfl, ?_, ?_⟩, ?_⟩
  · unfold payments_create
    simp only [hdt, hf]
    exact hstage
  · simp only [payments_create_commit, hdt]
  · simp only [payments_create_commit, hdt]
  · intro pdto hpe hlt
    refine record_payment_err db tid pdto txn hf (Or.inr (Or.inr ?_))
    rw [hpe]
    exact hlt

theorem c10_payments_create_frame_witness :
    ((payments_create dbPurW mpayBigW = .ok (payments_create_commit dbPurW mpayBigW) ∧
      (payments_create_commit dbPurW mpayBigW).contacts = dbPurW.contacts ∧
      (payments_create_commit dbPurW mpayBigW).txns = dbPurW.txns.map (fun t =>
        if t.id = 1 then
          { t with paid_amount := t.paid_amount + mpayBigW.amount,
                   payment_status :=
                     recordStatus (t.paid_amount + mpayBigW.amount) t.total_amount }
        else t) ∧
      (payments_create_commit dbPurW mpayBigW).payments = dbPurW.payments ++
        [⟨dbPurW.nextPaymentId, some 1, mpayBigW.contact_id, mpayBigW.amount, false⟩]) ∧
     (∀ pdto : CreatePaymentDto, pdto.amount = mpayBigW.amount →
       txnPurW.total_amount - txnPurW.paid_amount < mpayBigW.amount →
         record_payment dbPurW 1 pdto = .error .validation)) :=
  c10_payments_create_frame dbPurW mpayBigW 1 txnPurW rfl (by decide)
    (by intro cid hcid; cases hcid)


/-- C4 amended: updating or soft-deleting a payment leaves the
payment-consistency equation intact on reachable states — afterwards every
live transaction's paid_amount again equals the sum of its non-deleted linked
payments (for remove this is achieved by an incremental decrement that agrees
with the re-derivation, for update the new transaction is re-derived by a
SUM query) — and the stored statuses still satisfy the status rules; but the
claimed counterparty-balance recomputation is never re-run: the contact list
is returned unchanged by both operations. -/
theorem c4_amended_update_remove (db : DB) (pid : Nat) (db' : DB) (hI : Inv db) :
    (payments_remove db pid = .ok db' →
      db'.contacts = db.contacts ∧ PaidInv db' ∧ StatusInv db') ∧
    (∀ dto, payments_update db pid dto = .ok db' →
      db'.contacts = db.contacts ∧ PaidInv db' ∧ StatusInv db') := by
  constructor
  · intro h
    refine ⟨?_, (inv_payments_remove db pid db' hI h).2.1,
      (inv_payments_remove db pid db' hI h).2.2.1⟩
    unfold payments_remove at h
    cases hfp : findPayment db.payments pid with
    | none => rw [hfp] at h; cases h
    | some pay =>
      rw [hfp] at h
      cases h
      rfl
  · intro dto h
    refine ⟨?_, (inv_payments_update db pid dto db' hI h).2.1,
      (inv_payments_update db pid dto db' hI h).2.2.1⟩
    rcases payments_update_ok_shape db pid dto db' h with rfl | ⟨pay, hfp, rfl⟩
    · rfl
    · rfl

theorem c4_amended_update_remove_witness :
    (payments_remove (run dbW [Op.createPurchase purchaseDtoW,
        Op.paymentsCreate mpayW]) 1 =
      .ok (run dbW [Op.createPurchase purchaseDtoW, Op.paymentsCreate mpayW,
        Op.paymentsRemove 1]) →
      (run dbW [Op.createPurchase purchaseDtoW, Op.paymentsCreate mpayW,
        Op.paymentsRemove 1]).contacts =
        (run dbW [Op.createPurchase purchaseDtoW, Op.paymentsCreate mpayW]).contacts ∧
      PaidInv (run dbW [Op.createPurchase purchaseDtoW, Op.paymentsCreate mpayW,
        Op.paymentsRemove 1]) ∧
      StatusInv (run dbW [Op.createPurchase purchaseDtoW, Op.paymentsCreate mpayW,
        Op.paymentsRemove 1])) ∧
    (∀ dto, payments_update (run dbW [Op.createPurchase purchaseDtoW,
        Op.paymentsCreate mpayW]) 1 dto =
      .ok (run dbW [Op.createPurchase purchaseDtoW, Op.paymentsCreate mpayW,
        Op.paymentsRemove 1]) →
      (run dbW [Op.createPurchase purchaseDtoW, Op.paymentsCreate mpayW,
        Op.paymentsRemove 1]).contacts =
        (run dbW [Op.createPurchase purchaseDtoW, Op.paymentsCreate mpayW]).contacts ∧
      PaidInv (run dbW [Op.createPurchase purchaseDtoW, Op.paymentsCreate mpayW,
        Op.paymentsRemove 1]) ∧
      StatusInv (run dbW [Op.createPurchase purchaseDtoW, Op.paymentsCreate mpayW,
        Op.paymentsRemove 1])) :=
  c4_amended_update_remove
    (run dbW [Op.createPurchase purchaseDtoW, Op.paymentsCreate mpayW]) 1
    (run dbW [Op.createPurchase purchaseDtoW, Op.paymentsCreate mpayW,
      Op.paymentsRemove 1])
    (inv_run dbW [Op.createPurchase purchaseDtoW, Op.paymentsCreate mpayW]
      (by decide) (inv_seed [contactW] [productW]))

theorem status_agree (p tot : Money) (hp : 0 ≤ p) (h : p ≠ 0 ∨ 0 < tot)
    (st : PaymentStatus)
    (hst : st = createStatus p tot ∨ st = recordStatus p tot) :
    (st = .unpaid ↔ p = 0) ∧ (st = .paid ↔ tot ≤ p) ∧
    (st = .partial_paid ↔ (p ≠ 0 ∧ p < tot)) := by
  by_cases hp0 : p = 0
  · have htot : 0 < tot := h.resolve_left (fun hne => absurd hp0 hne)
    have hle : ¬ tot ≤ p := by
      rw [hp0]
      exact not_le.mpr htot
    have hstu : st = .unpaid := by
      rcases hst with rfl | rfl
      · unfold createStatus
        rw [if_pos hp0]
      · unfold recordStatus
        rw [if_neg hle, if_neg (by rw [hp0]; exact lt_irrefl 0)]
    subst hstu
    exact ⟨⟨fun _ => hp0, fun _ => rfl⟩,
      ⟨fun hc => PaymentStatus.noConfusion hc, fun hc => absurd hc hle⟩,
      ⟨fun hc => PaymentStatus.noConfusion hc, fun hc => absurd hp0 hc.1⟩⟩
  · have hppos : 0 < p := lt_of_le_of_ne hp (Ne.symm hp0)
    by_cases hle : tot ≤ p
    · have hstp : st = .paid := by
        rcases hst with rfl | rfl
        · unfold createStatus
          rw [if_neg hp0, if_pos hle]
        · unfold recordStatus
          rw [if_pos hle]
      subst hstp
      exact ⟨⟨fun hc => PaymentStatus.noConfusion hc, fun hc => absurd hc hp0⟩,
        ⟨fun _ => hle, fun _ => rfl⟩,
        ⟨fun hc => PaymentStatus.noConfusion hc,
          fun hc => absurd hc.2 (not_lt.mpr hle)⟩⟩
    · have hlt : p < tot := not_le.mp hle
      have hstp : st = .partial_paid := by
        rcases hst with rfl | rfl
        · unfold createStatus
          rw [if_neg hp0, if_neg hle]
        · unfold recordStatus
          rw [if_neg hle, if_pos hppos]
      subst hstp
      exact ⟨⟨fun hc => PaymentStatus.noConfusion hc, fun hc => absurd hc hp0⟩,
        ⟨fun hc => PaymentStatus.noConfusion hc, fun hc => absurd hc hle⟩,
        ⟨fun _ => ⟨hp0, hlt⟩, fun _ => rfl⟩⟩

/-- C7 amended: in every reachable state, for every live transaction away
from the degenerate boundary (paid_amount ≠ 0 or total_amount > 0), the
stored payment_status agrees with the pure rules of the claim: `unpaid` iff
paid_amount = 0, `paid` iff paid_amount ≥ total_amount, else `partial`. At
the boundary paid = 0 ∧ total ≤ 0 the two stored rules disagree with the
claim, as the counterexample shows. -/
theorem c7_amended_status_rules (cs : List Contact) (prs : List Product)
    (ops : List Op) (hV : ∀ op ∈ ops, op.Valid) :
    ∀ t ∈ (run (seedDB cs prs) ops).txns, t.deleted = false →
      (t.paid_amount ≠ 0 ∨ 0 < t.total_amount) →
      ((t.payment_status = .unpaid ↔ t.paid_amount = 0) ∧
       (t.payment_status = .paid ↔ t.total_amount ≤ t.paid_amount) ∧
       (t.payment_status = .partial_paid ↔
         (t.paid_amount ≠ 0 ∧ t.paid_amount < t.total_amount))) := by
  obtain ⟨hWF, hPaid, hStatus, _⟩ := inv_run (seedDB cs prs) ops hV (inv_seed cs prs)
  have hPP := paypos_run (seedDB cs prs) ops hV (paypos_seed cs prs)
  intro t ht hdel hcase
  have hpn : 0 ≤ t.paid_amount := by
    rw [hPaid t ht hdel]
    exact linkedPaidSum_nonneg _ _ hPP
  exact status_agree t.paid_amount t.total_amount hpn hcase t.payment_status
    (hStatus t ht)

theorem c7_amended_status_rules_witness :
    (∀ op ∈ [Op.createPurchase purchaseDtoW, Op.recordPayment 1 cpayW], op.Valid) ∧
    (∀ t ∈ (run (seedDB [contactW] [productW])
        [Op.createPurchase purchaseDtoW, Op.recordPayment 1 cpayW]).txns,
      t.deleted = false → (t.paid_amount ≠ 0 ∨ 0 < t.total_amount) →
      ((t.payment_status = .unpaid ↔ t.paid_amount = 0) ∧
       (t.payment_status = .paid ↔ t.total_amount ≤ t.paid_amount) ∧
       (t.payment_status = .partial_paid ↔
         (t.paid_amount ≠ 0 ∧ t.paid_amount < t.total_amount)))) :=
  ⟨by decide, c7_amended_status_rules [contactW] [productW]
    [Op.createPurchase purchaseDtoW, Op.recordPayment 1 cpayW] (by decide)⟩


theorem findPos_map_keyfix (ps : List ContainerProduct) (k : Nat × Nat)
    (f : ContainerProduct → ContainerProduct)
    (hk : ∀ cp, posKey (f cp) = posKey cp) :
    findPos (ps.map f) k = (findPos ps k).map f := by
  unfold findPos
  rw [List.find?_map]
  have he : ((fun cp => decide (posKey cp = k)) ∘ f)
      = (fun cp => decide (posKey cp = k)) := by
    funext cp
    simp [Function.comp, hk]
  rw [he]

theorem setLoop_single_zero (cid : Nat) (orig ps : List ContainerProduct)
    (logs : List InventoryLog) (it : SetItemDto) (h0 : it.quantity = 0)
    (hex : hasPos orig (it.productId, cid) = true) :
    ∃ lgs, setLoop cid orig [it] ps logs =
      .ok (ps.map (fun cp => if posKey cp = (it.productId, cid) then
        { cp with deleted := true } else cp), lgs) := by
  refine ⟨if (it.quantity - qtyOf ps (it.productId, cid)) ≠ 0 then
      logs ++ [{ product_id := it.productId, container_id := cid,
                 action := if 0 < it.quantity - qtyOf ps (it.productId, cid) then
                   "added" else "removed",
                 quantity := ((it.quantity - qtyOf ps (it.productId, cid)).natAbs : Int),
                 noteOld := qtyOf ps (it.productId, cid), noteNew := it.quantity }]
    else logs, ?_⟩
  simp [setLoop, hex, h0]

theorem setLoop_single_pos (cid : Nat) (orig ps : List ContainerProduct)
    (logs : List InventoryLog) (it : SetItemDto) (hq : 0 < it.quantity)
    (hex : hasPos orig (it.productId, cid) = true) :
    ∃ lgs, setLoop cid orig [it] ps logs =
      .ok (ps.map (fun cp => if posKey cp = (it.productId, cid) then
        { cp with quantity := it.quantity, deleted := false } else cp), lgs) := by
  refine ⟨if (it.quantity - qtyOf ps (it.productId, cid)) ≠ 0 then
      logs ++ [{ product_id := it.productId, container_id := cid,
                 action := if 0 < it.quantity - qtyOf ps (it.productId, cid) then
                   "added" else "removed",
                 quantity := ((it.quantity - qtyOf ps (it.productId, cid)).natAbs : Int),
                 noteOld := qtyOf ps (it.productId, cid), noteNew := it.quantity }]
    else logs, ?_⟩
  simp [setLoop, hex, not_lt.mpr (le_of_lt hq), ne_of_gt hq]


/-- C6 amended: the zero-quantity soft-delete and the restore are implemented
only by the manual stock-set path: for an existing position,
set_products_in_container with quantity 0 marks the row soft-deleted and with
a positive quantity clears the deleted flag; the sale path, by contrast,
never changes any position's deleted flag, so a position sold down to
quantity 0 is retained as a live zero row. -/
theorem c6_amended_soft_delete_paths (db : DB) (payload : CreateContainerProductDto)
    (it : SetItemDto) (db' : DB)
    (hitems : payload.items = [it])
    (hex : hasPos db.positions (it.productId, payload.containerId) = true)
    (hset : set_products_in_container db payload = .ok db') :
    ((it.quantity = 0 →
        deletedOf db'.positions (it.productId, payload.containerId) = some true) ∧
     (0 < it.quantity →
        deletedOf db'.positions (it.productId, payload.containerId) = some false)) ∧
    (∀ dto db1 tid, create_sale db dto = .ok (db1, tid) →
      ∀ k, deletedOf db1.positions k = deletedOf db.positions k) := by
  constructor
  · unfold set_products_in_container at hset
    rw [hitems] at hset
    rcases Option.isSome_iff_exists.mp hex with ⟨cp0, hf0⟩
    have hk0 : posKey cp0 = (it.productId, payload.containerId) := by
      simpa using List.find?_some hf0
    constructor
    · intro h0
      obtain ⟨lgs, hsl⟩ := setLoop_single_zero payload.containerId db.positions
        db.positions [] it h0 hex
      rw [hsl] at hset
      have h2 : (if posKeysNodup (db.positions.map (fun cp =>
            if posKey cp = (it.productId, payload.containerId) then
              { cp with deleted := true } else cp)) then
          Except.ok { db with
            positions := db.positions.map (fun cp =>
              if posKey cp = (it.productId, payload.containerId) then
                { cp with deleted := true } else cp),
            logs := db.logs ++ lgs }
        else (.error .conflict : Except Err DB)) = .ok db' := hset
      by_cases hnd : posKeysNodup (db.positions.map (fun cp =>
          if posKey cp = (it.productId, payload.containerId) then
            { cp with deleted := true } else cp)) = true
      · rw [if_pos hnd] at h2
        cases h2
        show deletedOf (db.positions.map (fun cp =>
            if posKey cp = (it.productId, payload.containerId) then
              { cp with deleted := true } else cp))
          (it.productId, payload.containerId) = some true
        unfold deletedOf
        rw [findPos_map_keyfix _ _ _ (fun cp => by
          by_cases hk : posKey cp = (it.productId, payload.containerId)
          · rw [if_pos hk]
            rfl
          · rw [if_neg hk])]
        rw [hf0]
        simp [hk0]
      · rw [if_neg hnd] at h2
        cases h2
    · intro hq
      obtain ⟨lgs, hsl⟩ := setLoop_single_pos payload.containerId db.positions
        db.positions [] it hq hex
      rw [hsl] at hset
      have h2 : (if posKeysNodup (db.positions.map (fun cp =>
            if posKey cp = (it.productId, payload.containerId) then
              { cp with quantity := it.quantity, deleted := false } else cp)) then
          Except.ok { db with
            positions := db.positions.map (fun cp =>
              if posKey cp = (it.productId, payload.containerId) then
                { cp with quantity := it.quantity, deleted := false } else cp),
            logs := db.logs ++ lgs }
        else (.error .conflict : Except Err DB)) = .ok db' := hset
      by_cases hnd : posKeysNodup (db.positions.map (fun cp =>
          if posKey cp = (it.productId, payload.containerId) then
            { cp with quantity := it.quantity, deleted := false } else cp)) = true
      · rw [if_pos hnd] at h2
        cases h2
        show deletedOf (db.positions.map (fun cp =>
            if posKey cp = (it.productId, payload.containerId) then
              { cp with quantity := it.quantity, deleted := false } else cp))
          (it.productId, payload.containerId) = some false
        unfold deletedOf
        rw [findPos_map_keyfix _ _ _ (fun cp => by
          by_cases hk : posKey cp = (it.productId, payload.containerId)
          · rw [if_pos hk]
            rfl
          · rw [if_neg hk])]
        rw [hf0]
        simp [hk0]
      · rw [if_neg hnd] at h2
        cases h2
  · intro dto db1 tid h
    unfold create_sale at h
    cases hc : findContact db.contacts dto.contact_id with
    | none => rw [hc] at h; cases h
    | some contact =>
      rw [hc] at h
      repeat' split at h
      all_goals try cases h
      all_goals
        intro k
        show deletedOf (saleLoop db.nextTxnId dto.items db.positions).2.1 k
          = deletedOf db.positions k
        rw [saleLoop_deleted]

theorem c6_amended_soft_delete_paths_witness :
    (((⟨1, 0⟩ : SetItemDto).quantity = 0 →
        deletedOf (run dbW [Op.createPurchase purchaseDtoW,
          Op.setProducts setZeroW]).positions
          ((⟨1, 0⟩ : SetItemDto).productId, setZeroW.containerId) = some true) ∧
     (0 < (⟨1, 0⟩ : SetItemDto).quantity →
        deletedOf (run dbW [Op.createPurchase purchaseDtoW,
          Op.setProducts setZeroW]).positions
          ((⟨1, 0⟩ : SetItemDto).productId, setZeroW.containerId) = some false)) ∧
    (∀ dto db1 tid, create_sale dbPurW dto = .ok (db1, tid) →
      ∀ k, deletedOf db1.positions k = deletedOf dbPurW.positions k) :=
  c6_amended_soft_delete_paths dbPurW setZeroW ⟨1, 0⟩
    (run dbW [Op.createPurchase purchaseDtoW, Op.setProducts setZeroW])
    rfl (by decide) (by decide)

end MyStock
